import Mathlib

/-!
Verification of the RoseTerm terminal core against its specification.

The definitions below are a shallow embedding of the Rust sources:
  - src/terminal/grid.rs : Color, Cell, Terminal, its methods, and the
    vte Perform implementation (print, execute, osc_dispatch, csi_dispatch);
  - src/gui/window.rs    : encode_mouse, ctrl_key_to_byte,
    process_special_key and the PTY-writing branches of handle_input.

Rust Vec indexing, remove and insert panic when the index is out of
range; the embedding makes every such operation Option-valued (none =
panic), so "no panic" is the statement that an operation returns some.
Machine integers (usize) are modelled as Nat; every subtraction in the
source is saturating or guarded, matching Nat subtraction.
-/

/-- Color enum from src/terminal/grid.rs. -/
inductive Color where
  | Black | Red | Green | Yellow | Blue | Magenta | Cyan | White
  | BrightBlack | BrightRed | BrightGreen | BrightYellow
  | BrightBlue | BrightMagenta | BrightCyan | BrightWhite
  | DefaultFg
  | DefaultBg
deriving DecidableEq, Repr

/-- Cell struct from src/terminal/grid.rs. -/
structure Cell where
  char : Char
  fg : Color
  bg : Color
  inverse : Bool
deriving DecidableEq, Repr

/-- Default::default() for Cell. -/
def Cell.default : Cell :=
  { char := ' ', fg := Color.DefaultFg, bg := Color.DefaultBg, inverse := false }

/-- Terminal struct from src/terminal/grid.rs. -/
structure Terminal where
  grid : List (List Cell)
  history : List (List Cell)
  cols : Nat
  rows : Nat
  cursor_x : Nat
  cursor_y : Nat
  scroll_offset : Nat
  scroll_top : Nat
  scroll_bottom : Nat
  current_fg : Color
  current_bg : Color
  current_inverse : Bool
  saved_cursor_x : Nat
  saved_cursor_y : Nat
  mouse_reporting : Bool
  title : List Char
  selection_start : Option (Nat × Nat)
  selection_end : Option (Nat × Nat)
deriving DecidableEq, Repr

namespace Terminal

/-- Terminal::new from src/terminal/grid.rs. -/
def new (cols rows : Nat) : Terminal where
  grid := List.replicate rows (List.replicate cols Cell.default)
  history := []
  cols := cols
  rows := rows
  cursor_x := 0
  cursor_y := 0
  scroll_offset := 0
  scroll_top := 0
  scroll_bottom := rows - 1
  current_fg := Color.DefaultFg
  current_bg := Color.DefaultBg
  current_inverse := false
  saved_cursor_x := 0
  saved_cursor_y := 0
  mouse_reporting := false
  title := [ 'R', 'o', 's', 'e', 'T', 'e', 'r', 'm' ]
  selection_start := none
  selection_end := none

end Terminal

/-! ### Checked Vec operations

Rust `Vec::remove`, `Vec::insert` and index expressions panic out of
range; these Option-valued wrappers return `none` exactly there. -/

/-- Vec::remove(i): returns the removed element and the rest; none = panic. -/
def vecRemove (l : List α) (i : Nat) : Option (α × List α) :=
  match l.get? i with
  | some a => some (a, l.eraseIdx i)
  | none => none

/-- Vec::insert(i, a); none = panic (i > len). -/
def vecInsert (l : List α) (i : Nat) (a : α) : Option (List α) :=
  if i ≤ l.length then some (l.insertIdx i a) else none

/-- v[i] = a (IndexMut); none = panic (i ≥ len). -/
def vecSet (l : List α) (i : Nat) (a : α) : Option (List α) :=
  if i < l.length then some (l.set i a) else none

/-- v[i] (Index); none = panic. -/
def vecGet (l : List α) (i : Nat) : Option α := l.get? i

/-- Run an Option-valued step `n` times (a Rust `for _ in 0..n` loop body). -/
def iterOpt (f : α → Option α) : Nat → α → Option α
  | 0, a => some a
  | n + 1, a =>
    match f a with
    | some a1 => iterOpt f n a1
    | none => none

/-- Fold an Option-valued body over the Rust range `lo..hi`. -/
def foldRangeOpt (lo hi : Nat) (f : α → Nat → Option α) (init : α) : Option α :=
  (List.range' lo (hi - lo)).foldlM f init

theorem vecRemove_some {l : List α} {i : Nat} (h : i < l.length) :
    vecRemove l i = some (l.get ⟨i, h⟩, l.eraseIdx i) := by
  simp [vecRemove, List.getElem?_eq_getElem h]

theorem vecInsert_some {l : List α} {i : Nat} {a : α} (h : i ≤ l.length) :
    vecInsert l i a = some (l.insertIdx i a) := by
  simp [vecInsert, h]

theorem vecSet_some {l : List α} {i : Nat} {a : α} (h : i < l.length) :
    vecSet l i a = some (l.set i a) := by
  simp [vecSet, h]

theorem vecGet_some {l : List α} {i : Nat} (h : i < l.length) :
    vecGet l i = some (l.get ⟨i, h⟩) := by
  simp [vecGet, List.getElem?_eq_getElem h]

/-! ### UTF-8 validation/decoding (std::str::from_utf8) -/

/-- Is `b` a UTF-8 continuation byte (0x80..=0xBF)? -/
def isCont (b : Nat) : Bool := 0x80 ≤ b && b ≤ 0xBF

/-- Decode a byte list as UTF-8, mirroring Rust's std::str::from_utf8
validity rules (RFC 3629: no overlongs, no surrogates, max U+10FFFF);
none = invalid. -/
def utf8Decode : List Nat → Option (List Char)
  | [] => some []
  | b1 :: rest =>
    if b1 < 0x80 then
      (utf8Decode rest).map (fun cs => Char.ofNat b1 :: cs)
    else if 0xC2 ≤ b1 && b1 ≤ 0xDF then
      match rest with
      | b2 :: rest2 =>
        if isCont b2 then
          (utf8Decode rest2).map (fun cs => Char.ofNat ((b1 - 0xC0) * 0x40 + (b2 - 0x80)) :: cs)
        else none
      | [] => none
    else if 0xE0 ≤ b1 && b1 ≤ 0xEF then
      match rest with
      | b2 :: b3 :: rest3 =>
        let lo2 := if b1 = 0xE0 then 0xA0 else 0x80
        let hi2 := if b1 = 0xED then 0x9F else 0xBF
        if lo2 ≤ b2 && b2 ≤ hi2 && isCont b3 then
          (utf8Decode rest3).map (fun cs =>
            Char.ofNat ((b1 - 0xE0) * 0x1000 + (b2 - 0x80) * 0x40 + (b3 - 0x80)) :: cs)
        else none
      | _ => none
    else if 0xF0 ≤ b1 && b1 ≤ 0xF4 then
      match rest with
      | b2 :: b3 :: b4 :: rest4 =>
        let lo2 := if b1 = 0xF0 then 0x90 else 0x80
        let hi2 := if b1 = 0xF4 then 0x8F else 0xBF
        if lo2 ≤ b2 && b2 ≤ hi2 && isCont b3 && isCont b4 then
          (utf8Decode rest4).map (fun cs =>
            Char.ofNat ((b1 - 0xF0) * 0x40000 + (b2 - 0x80) * 0x1000 +
              (b3 - 0x80) * 0x40 + (b4 - 0x80)) :: cs)
        else none
      | _ => none
    else none

/-- UTF-8 encoding of one scalar (char::encode_utf8 in Rust). -/
def utf8EncodeChar (c : Char) : List Nat :=
  let n := c.toNat
  if n < 0x80 then [n]
  else if n < 0x800 then [0xC0 + n / 0x40, 0x80 + n % 0x40]
  else if n < 0x10000 then
    [0xE0 + n / 0x1000, 0x80 + n / 0x40 % 0x40, 0x80 + n % 0x40]
  else
    [0xF0 + n / 0x40000, 0x80 + n / 0x1000 % 0x40, 0x80 + n / 0x40 % 0x40, 0x80 + n % 0x40]

/-- Decimal digits of a Nat, accumulator style with structural fuel
(embedding of Rust's Display for unsigned integers, used by format!). -/
def natDigitsCore : Nat → Nat → List Char → List Char
  | 0, _, acc => acc
  | fuel + 1, n, acc =>
    let d := Char.ofNat (48 + n % 10)
    if n < 10 then d :: acc else natDigitsCore fuel (n / 10) (d :: acc)

/-- Decimal representation of a Nat as characters. -/
def natDecimal (n : Nat) : List Char := natDigitsCore (n + 1) n []

/-! ### Terminal methods (src/terminal/grid.rs) -/

namespace Terminal

/-- Terminal::start_selection. -/
def start_selection (t : Terminal) (col row : Nat) : Terminal :=
  { t with selection_start := some (col, row), selection_end := some (col, row) }

/-- Terminal::update_selection. -/
def update_selection (t : Terminal) (col row : Nat) : Terminal :=
  if t.selection_start.isSome then { t with selection_end := some (col, row) } else t

/-- Terminal::clear_selection. -/
def clear_selection (t : Terminal) : Terminal :=
  { t with selection_start := none, selection_end := none }

/-- Terminal::is_selected.  Rust tuples are (col, row): `.0` = col = `.1`
here, `.1` = row = `.2` here. -/
def is_selected (t : Terminal) (col row : Nat) : Bool :=
  match t.selection_start, t.selection_end with
  | some s, some e =>
    let p := if s.2 < e.2 ∨ (s.2 = e.2 ∧ s.1 ≤ e.1) then (s, e) else (e, s)
    if row < p.1.2 ∨ row > p.2.2 then false
    else if row = p.1.2 ∧ row = p.2.2 then decide (col ≥ p.1.1 ∧ col ≤ p.2.1)
    else if row = p.1.2 then decide (col ≥ p.1.1)
    else if row = p.2.2 then decide (col ≤ p.2.1)
    else true
  | _, _ => false

/-- Terminal::blank_cell. -/
def blank_cell (t : Terminal) : Cell :=
  { char := ' ', fg := t.current_fg, bg := t.current_bg, inverse := t.current_inverse }

/-- Terminal::new_line.  `none` = a Vec operation panicked. -/
def new_line (t : Terminal) : Option Terminal :=
  if t.cursor_y = t.scroll_bottom then
    match vecRemove t.grid t.scroll_top with
    | none => none
    | some (removed, grid1) =>
      let history :=
        if t.scroll_top = 0 then
          (if t.history.length > 10000 then t.history.tail else t.history) ++ [removed]
        else t.history
      match vecInsert grid1 t.scroll_bottom (List.replicate t.cols t.blank_cell) with
      | none => none
      | some grid2 => some { t with grid := grid2, history := history }
  else
    let y := t.cursor_y + 1
    some { t with cursor_y := if y ≥ t.rows then t.rows - 1 else y }

/-- Terminal::scroll_up. -/
def scroll_up (t : Terminal) (lines : Nat) : Terminal :=
  { t with scroll_offset := min (t.scroll_offset + lines) t.history.length }

/-- Terminal::scroll_down (saturating_sub = Nat subtraction). -/
def scroll_down (t : Terminal) (lines : Nat) : Terminal :=
  { t with scroll_offset := t.scroll_offset - lines }

/-- Vec::resize on a list (truncate, or pad with copies of `a`). -/
def listResize (l : List α) (n : Nat) (a : α) : List α :=
  if n ≤ l.length then l.take n else l ++ List.replicate (n - l.length) a

/-- Terminal::resize. -/
def resize (t : Terminal) (new_cols new_rows : Nat) : Terminal :=
  let grid1 := listResize t.grid new_rows (List.replicate new_cols Cell.default)
  let grid2 := grid1.map (fun row => listResize row new_cols Cell.default)
  { t with
    grid := grid2
    rows := new_rows
    cols := new_cols
    scroll_top := 0
    scroll_bottom := new_rows - 1
    cursor_x := min t.cursor_x (new_cols - 1)
    cursor_y := min t.cursor_y (new_rows - 1)
    scroll_offset := 0 }

end Terminal

/-! ### The vte Perform implementation for Terminal (src/terminal/grid.rs) -/

/-- The closure `p` of csi_dispatch: i-th parameter, absent -> 1, 0 -> 1.
`none` = indexing an empty subparameter slice (never produced by vte). -/
def csiParam (params : List (List Nat)) (i : Nat) : Option Nat :=
  match params.get? i with
  | none => some 1
  | some sub =>
    match sub.head? with
    | none => none
    | some v => some (if v = 0 then 1 else v)

/-- `params.iter().next().map(|x| x[0]).unwrap_or(0)` in the J/K arms. -/
def csiFirstRaw (params : List (List Nat)) : Option Nat :=
  match params.head? with
  | none => some 0
  | some sub => sub.head?

/-- The `clear_cell` closure of the J/K arms. -/
def clearCell (c : Cell) : Cell :=
  { c with char := ' ', fg := Color.DefaultFg, bg := Color.DefaultBg, inverse := false }

/-- `clear_cell(&mut row[x])`: checked index read + write. -/
def clearAt (row : List Cell) (x : Nat) : Option (List Cell) :=
  match vecGet row x with
  | none => none
  | some c => vecSet row x (clearCell c)

/-- Clear the whole row at index y of g (`for cell in &mut grid[y]`). -/
def clearRowAt (g : List (List Cell)) (y : Nat) : Option (List (List Cell)) :=
  match vecGet g y with
  | none => none
  | some row => vecSet g y (row.map clearCell)

/-- Clear columns `lo..hi` of the row at index y of g. -/
def clearRowRange (g : List (List Cell)) (y lo hi : Nat) :
    Option (List (List Cell)) :=
  match vecGet g y with
  | none => none
  | some row =>
    match foldRangeOpt lo hi clearAt row with
    | none => none
    | some row1 => vecSet g y row1

/-- The `0 | _` arm of ED (`J`): clear cursor to end of line, then all rows below. -/
def edBelow (t : Terminal) : Option (List (List Cell)) :=
  match (if t.cursor_y < t.rows
         then clearRowRange t.grid t.cursor_y t.cursor_x t.cols
         else some t.grid) with
  | none => none
  | some g1 => foldRangeOpt (t.cursor_y + 1) t.rows clearRowAt g1

/-- EL (`K`) on the cursor row. -/
def elLine (t : Terminal) (param : Nat) : Option (List (List Cell)) :=
  if param = 2 then clearRowAt t.grid t.cursor_y
  else if param = 1 then clearRowRange t.grid t.cursor_y 0 t.cursor_x
  else clearRowRange t.grid t.cursor_y t.cursor_x t.cols

/-- One iteration of IL (`L`): grid.remove(scroll_bottom); grid.insert(cy, blank_row). -/
def ilStep (t : Terminal) (g : List (List Cell)) : Option (List (List Cell)) :=
  match vecRemove g t.scroll_bottom with
  | none => none
  | some (_, g1) => vecInsert g1 t.cursor_y (List.replicate t.cols t.blank_cell)

/-- One iteration of DL (`M`): grid.remove(cy); grid.insert(scroll_bottom, blank_row). -/
def dlStep (t : Terminal) (g : List (List Cell)) : Option (List (List Cell)) :=
  match vecRemove g t.cursor_y with
  | none => none
  | some (_, g1) => vecInsert g1 t.scroll_bottom (List.replicate t.cols t.blank_cell)

/-- One iteration of DCH (`P`). -/
def dchStep (cx cy : Nat) (blank : Cell) (g : List (List Cell)) :
    Option (List (List Cell)) :=
  match vecGet g cy with
  | none => none
  | some row =>
    if cx < row.length then
      match vecRemove row cx with
      | none => none
      | some (_, row1) => vecSet g cy (row1 ++ [blank])
    else some g

/-- One iteration of ICH (`@`). -/
def ichStep (cols cx cy : Nat) (blank : Cell) (g : List (List Cell)) :
    Option (List (List Cell)) :=
  if cx < cols then
    match vecGet g cy with
    | none => none
    | some row =>
      match vecInsert row cx blank with
      | none => none
      | some row1 => vecSet g cy row1.dropLast
  else some g

/-- SGR parameter 1 (bold): promote a standard fg color to its Bright twin. -/
def sgrBold : Color → Color
  | Color.Black => Color.BrightBlack
  | Color.Red => Color.BrightRed
  | Color.Green => Color.BrightGreen
  | Color.Yellow => Color.BrightYellow
  | Color.Blue => Color.BrightBlue
  | Color.Magenta => Color.BrightMagenta
  | Color.Cyan => Color.BrightCyan
  | Color.White => Color.BrightWhite
  | c => c

/-- Apply one SGR parameter value to the pen (the `m` arm's match). -/
def sgrApply (t : Terminal) (v : Nat) : Terminal :=
  match v with
  | 0 => { t with current_fg := Color.DefaultFg, current_bg := Color.DefaultBg,
                  current_inverse := false }
  | 1 => { t with current_fg := sgrBold t.current_fg }
  | 7 => { t with current_inverse := true }
  | 27 => { t with current_inverse := false }
  | 30 => { t with current_fg := Color.Black }
  | 31 => { t with current_fg := Color.Red }
  | 32 => { t with current_fg := Color.Green }
  | 33 => { t with current_fg := Color.Yellow }
  | 34 => { t with current_fg := Color.Blue }
  | 35 => { t with current_fg := Color.Magenta }
  | 36 => { t with current_fg := Color.Cyan }
  | 37 => { t with current_fg := Color.White }
  | 39 => { t with current_fg := Color.DefaultFg }
  | 40 => { t with current_bg := Color.Black }
  | 41 => { t with current_bg := Color.Red }
  | 42 => { t with current_bg := Color.Green }
  | 43 => { t with current_bg := Color.Yellow }
  | 44 => { t with current_bg := Color.Blue }
  | 45 => { t with current_bg := Color.Magenta }
  | 46 => { t with current_bg := Color.Cyan }
  | 47 => { t with current_bg := Color.White }
  | 49 => { t with current_bg := Color.DefaultBg }
  | 90 => { t with current_fg := Color.BrightBlack }
  | 91 => { t with current_fg := Color.BrightRed }
  | 92 => { t with current_fg := Color.BrightGreen }
  | 93 => { t with current_fg := Color.BrightYellow }
  | 94 => { t with current_fg := Color.BrightBlue }
  | 95 => { t with current_fg := Color.BrightMagenta }
  | 96 => { t with current_fg := Color.BrightCyan }
  | 97 => { t with current_fg := Color.BrightWhite }
  | _ => t

/-- One parameter of the SGR loop (`p_iter[0]` indexes the slice). -/
def sgrStep (t : Terminal) (sub : List Nat) : Option Terminal :=
  match sub.head? with
  | none => none
  | some v => some (sgrApply t v)

/-- One parameter of the DECSET/DECRST (`h`/`l`) loops. -/
def modeStep (flag : Bool) (t : Terminal) (sub : List Nat) : Option Terminal :=
  match sub.head? with
  | none => none
  | some v =>
    some (if v = 1000 ∨ v = 1002 ∨ v = 1006 ∨ v = 1015
          then { t with mouse_reporting := flag } else t)

/-- The `H` / `f` (CUP) arm. -/
def cupDispatch (t : Terminal) (params : List (List Nat)) : Option Terminal :=
  match csiParam params 0 with
  | none => none
  | some pr =>
    match csiParam params 1 with
    | none => none
    | some pc =>
      some { t with cursor_y := min (pr - 1) (t.rows - 1),
                    cursor_x := min (pc - 1) (t.cols - 1) }

/-- Perform::csi_dispatch for Terminal.  `none` = panic. -/
def perform_csi (t : Terminal) (params : List (List Nat)) (action : Char) :
    Option Terminal :=
  match action with
  | 'A' => (csiParam params 0).map (fun p => { t with cursor_y := t.cursor_y - p })
  | 'B' => (csiParam params 0).map (fun p =>
      { t with cursor_y := min (t.cursor_y + p) (t.rows - 1) })
  | 'C' => (csiParam params 0).map (fun p =>
      { t with cursor_x := min (t.cursor_x + p) (t.cols - 1) })
  | 'D' => (csiParam params 0).map (fun p => { t with cursor_x := t.cursor_x - p })
  | 'H' => cupDispatch t params
  | 'f' => cupDispatch t params
  | 'G' => (csiParam params 0).map (fun p =>
      { t with cursor_x := min (p - 1) (t.cols - 1) })
  | 'd' => (csiParam params 0).map (fun p =>
      { t with cursor_y := min (p - 1) (t.rows - 1) })
  | 'J' =>
    match csiFirstRaw params with
    | none => none
    | some param =>
      if param = 2 then
        some { t with grid := t.grid.map (fun row => row.map clearCell),
                      cursor_x := 0, cursor_y := 0 }
      else (edBelow t).map (fun g => { t with grid := g })
  | 'K' =>
    match csiFirstRaw params with
    | none => none
    | some param => (elLine t param).map (fun g => { t with grid := g })
  | 'L' =>
    match csiParam params 0 with
    | none => none
    | some count =>
      if t.scroll_top ≤ t.cursor_y ∧ t.cursor_y ≤ t.scroll_bottom then
        (iterOpt (ilStep t) count t.grid).map (fun g => { t with grid := g })
      else some t
  | 'M' =>
    match csiParam params 0 with
    | none => none
    | some count =>
      if t.scroll_top ≤ t.cursor_y ∧ t.cursor_y ≤ t.scroll_bottom then
        (iterOpt (dlStep t) count t.grid).map (fun g => { t with grid := g })
      else some t
  | 'P' =>
    match csiParam params 0 with
    | none => none
    | some count =>
      (iterOpt (dchStep t.cursor_x t.cursor_y t.blank_cell) count t.grid).map
        (fun g => { t with grid := g })
  | '@' =>
    match csiParam params 0 with
    | none => none
    | some count =>
      (iterOpt (ichStep t.cols t.cursor_x t.cursor_y t.blank_cell) count t.grid).map
        (fun g => { t with grid := g })
  | 'r' =>
    match csiParam params 0 with
    | none => none
    | some p0 =>
      match (if params.length > 1 then (csiParam params 1).map (fun p1 => p1 - 1)
             else some (t.rows - 1)) with
      | none => none
      | some bot =>
        let st := min (p0 - 1) (t.rows - 1)
        let sb := min bot (t.rows - 1)
        if sb ≤ st then
          some { t with scroll_top := 0, scroll_bottom := t.rows - 1,
                        cursor_x := 0, cursor_y := 0 }
        else
          some { t with scroll_top := st, scroll_bottom := sb,
                        cursor_x := 0, cursor_y := 0 }
  | 'h' => params.foldlM (modeStep true) t
  | 'l' => params.foldlM (modeStep false) t
  | 'm' =>
    if params.length = 0 then
      some { t with current_fg := Color.DefaultFg, current_bg := Color.DefaultBg,
                    current_inverse := false }
    else params.foldlM sgrStep t
  | _ => some t

/-- Perform::print for Terminal. -/
def perform_print (t0 : Terminal) (c : Char) : Option Terminal :=
  match (if t0.cursor_x ≥ t0.cols
         then (t0.new_line).map (fun t1 => { t1 with cursor_x := 0 })
         else some t0) with
  | none => none
  | some t =>
    match vecGet t.grid t.cursor_y with
    | none => none
    | some row =>
      match vecSet row t.cursor_x
        { char := c, fg := t.current_fg, bg := t.current_bg,
          inverse := t.current_inverse } with
      | none => none
      | some row1 =>
        match vecSet t.grid t.cursor_y row1 with
        | none => none
        | some grid1 => some { t with grid := grid1, cursor_x := t.cursor_x + 1 }

/-- Perform::execute for Terminal. -/
def perform_execute (t : Terminal) (byte : Nat) : Option Terminal :=
  if byte = 10 then t.new_line
  else if byte = 13 then some { t with cursor_x := 0 }
  else if byte = 8 then
    some (if t.cursor_x > 0 then { t with cursor_x := t.cursor_x - 1 } else t)
  else some t

/-- Perform::osc_dispatch for Terminal (params are byte slices;
byte string "0" = [48], "2" = [50]). -/
def perform_osc (t : Terminal) (params : List (List Nat)) : Option Terminal :=
  match params with
  | command :: text_bytes :: _ =>
    if command = [48] ∨ command = [50] then
      match utf8Decode text_bytes with
      | some title_str => some { t with title := title_str }
      | none => some t
    else some t
  | _ => some t

/-- One effect operation the vte parser can invoke on the Terminal. -/
inductive Effect where
  | print (c : Char)
  | execute (b : Nat)
  | csi (params : List (List Nat)) (action : Char)
  | osc (params : List (List Nat))
deriving DecidableEq, Repr

/-- Well-formedness of an effect as produced by the vte parser: CSI
subparameter slices are never empty. -/
def Effect.wf : Effect → Prop
  | .csi ps _ => ∀ sub ∈ ps, sub ≠ []
  | _ => True

instance : (e : Effect) → Decidable e.wf
  | .print _ => Decidable.isTrue trivial
  | .execute _ => Decidable.isTrue trivial
  | .csi ps _ => inferInstanceAs (Decidable (∀ sub ∈ ps, sub ≠ []))
  | .osc _ => Decidable.isTrue trivial

/-- Dispatch one effect (the Perform impl). -/
def applyEffect (t : Terminal) : Effect → Option Terminal
  | .print c => perform_print t c
  | .execute b => perform_execute t b
  | .csi ps a => perform_csi t ps a
  | .osc ps => perform_osc t ps

/-- Feed a whole effect sequence. -/
def applyEffects (t : Terminal) : List Effect → Option Terminal
  | [] => some t
  | e :: es =>
    match applyEffect t e with
    | none => none
    | some t1 => applyEffects t1 es

/-! ### Input encoder (src/gui/window.rs) -/

/-- The VirtualKeyCode values handled by the window (subset used). -/
inductive Key where
  | Return | Escape | Back | Delete
  | Up | Down | Right | Left
  | PageUp | PageDown | Home | End
  | A | B | C | D | E | F | G | H | I | J | K | L | M
  | N | O | P | Q | R | S | T | U | V | W | X | Y | Z
  | LBracket | Backslash | RBracket | Caret | Slash
deriving DecidableEq, Repr

/-- ctrl_key_to_byte from src/gui/window.rs. -/
def ctrl_key_to_byte : Key → Option Nat
  | Key.A => some 1
  | Key.B => some 2
  | Key.C => some 3
  | Key.D => some 4
  | Key.E => some 5
  | Key.F => some 6
  | Key.G => some 7
  | Key.H => some 8
  | Key.I => some 9
  | Key.J => some 10
  | Key.K => some 11
  | Key.L => some 12
  | Key.M => some 13
  | Key.N => some 14
  | Key.O => some 15
  | Key.P => some 16
  | Key.Q => some 17
  | Key.R => some 18
  | Key.S => some 19
  | Key.T => some 20
  | Key.U => some 21
  | Key.V => some 22
  | Key.W => some 23
  | Key.X => some 24
  | Key.Y => some 25
  | Key.Z => some 26
  | Key.LBracket => some 27
  | Key.Backslash => some 28
  | Key.RBracket => some 29
  | Key.Caret => some 30
  | Key.Slash => some 31
  | _ => none

/-- The key array of handle_input's control-code branch. -/
def ctrlLoopKeys : List Key :=
  [Key.A, Key.B, Key.C, Key.D, Key.E, Key.F, Key.G, Key.H, Key.I, Key.J,
   Key.K, Key.L, Key.M, Key.N, Key.O, Key.P, Key.Q, Key.R, Key.S, Key.T,
   Key.U, Key.V, Key.W, Key.X, Key.Y, Key.Z,
   Key.LBracket, Key.RBracket, Key.Backslash]

/-- Reset scroll_offset as the source does before forwarding a keystroke. -/
def resetScroll (t : Terminal) : Terminal :=
  if t.scroll_offset > 0 then { t with scroll_offset := 0 } else t

/-- RoseWindow::process_special_key: returns the updated terminal, the
bytes written to the PTY, and the bool result. -/
def process_special_key (t : Terminal) (key : Key) (held_shift held_ctrl : Bool) :
    Terminal × List Nat × Bool :=
  match key with
  | Key.Return => (resetScroll t, [13], true)
  | Key.Escape => (t, [27], true)
  | Key.Back => (resetScroll t, [127], true)
  | Key.Delete => (t, [27, 91, 51, 126], true)
  | Key.Up =>
    if held_shift && !held_ctrl then (t.scroll_up 1, [], true)
    else (t, [27, 91, 65], true)
  | Key.Down =>
    if held_shift && !held_ctrl then (t.scroll_down 1, [], true)
    else (t, [27, 91, 66], true)
  | Key.Right => (t, [27, 91, 67], true)
  | Key.Left => (t, [27, 91, 68], true)
  | Key.PageUp =>
    if held_shift then (t.scroll_up 10, [], true)
    else (t, [27, 91, 53, 126], true)
  | Key.PageDown =>
    if held_shift then (t.scroll_down 10, [], true)
    else (t, [27, 91, 54, 126], true)
  | Key.Home => (t, [27, 91, 72], true)
  | Key.End => (t, [27, 91, 70], true)
  | _ => (t, [], false)

/-- One PTY-writing input event of RoseWindow::handle_input.  Clipboard
reads are passed in as `Option` (Err = none, swallowed by the source). -/
inductive InputEvent where
  | textChar (c : Char)
  | ctrlKey (k : Key)
  | special (k : Key) (held_shift held_ctrl : Bool)
  | pasteShiftInsert (clip : Option (List Nat))
  | pasteCtrlShiftV (clip : Option (List Nat))
deriving DecidableEq, Repr

/-- The corresponding branch of RoseWindow::handle_input: updated
terminal plus bytes written to the PTY. -/
def handleEvent (t : Terminal) : InputEvent → Terminal × List Nat
  | .textChar c => (resetScroll t, utf8EncodeChar c)
  | .ctrlKey k =>
    if k ∈ ctrlLoopKeys then
      match ctrl_key_to_byte k with
      | some b => (resetScroll t, [b])
      | none => (t, [])
    else (t, [])
  | .special k held_shift held_ctrl =>
    let r := process_special_key t k held_shift held_ctrl
    (r.1, r.2.1)
  | .pasteShiftInsert clip =>
    match clip with
    | some text => (resetScroll t, text)
    | none => (t, [])
  | .pasteCtrlShiftV clip =>
    match clip with
    | some text => (t, text)
    | none => (t, [])

/-- encode_mouse from src/gui/window.rs (format! renders integers in
decimal); the result is the char list of the formatted string. -/
def encode_mouse (button x y : Nat) (release : Bool) : List Char :=
  let suffix := if release then 'm' else 'M'
  [ '\x1b', '[', '<' ] ++ natDecimal button ++ [ ';' ] ++ natDecimal (x + 1) ++
    [ ';' ] ++ natDecimal (y + 1) ++ [suffix]

/-- The left-mouse-press branch of handle_input's mouse handling:
bytes written to the PTY ([] when app_mouse_mode is off). -/
def mouse_left_press_bytes (t : Terminal) (force_selection : Bool) (col row : Nat) :
    List Char :=
  let app_mouse_mode := t.mouse_reporting && !force_selection
  if app_mouse_mode then encode_mouse 0 col row false else []

/-! ### Invariants -/

/-- Grid shape: `rows` rows, every row of length `cols`. -/
def GridOK (rows cols : Nat) (g : List (List Cell)) : Prop :=
  g.length = rows ∧ ∀ row ∈ g, row.length = cols

/-- The state invariant of the terminal core (spec section 3). -/
def TermInv (t : Terminal) : Prop :=
  1 ≤ t.cols ∧ 1 ≤ t.rows ∧
  GridOK t.rows t.cols t.grid ∧
  t.cursor_x ≤ t.cols ∧ t.cursor_y < t.rows ∧
  t.scroll_top ≤ t.scroll_bottom ∧ t.scroll_bottom < t.rows

instance (rows cols : Nat) (g : List (List Cell)) : Decidable (GridOK rows cols g) := by
  unfold GridOK; infer_instance

instance (t : Terminal) : Decidable (TermInv t) := by
  unfold TermInv; infer_instance

/-! ### Generic Option-loop lemmas -/

theorem iterOpt_preserve {P : α → Prop} {f : α → Option α}
    (hf : ∀ a, P a → ∃ b, f a = some b ∧ P b) :
    ∀ n a, P a → ∃ b, iterOpt f n a = some b ∧ P b := by
  intro n
  induction n with
  | zero => intro a ha; exact ⟨a, rfl, ha⟩
  | succ n ih =>
    intro a ha
    obtain ⟨b, hb, hPb⟩ := hf a ha
    obtain ⟨c, hc, hPc⟩ := ih b hPb
    exact ⟨c, by simp [iterOpt, hb, hc], hPc⟩

theorem foldlM_preserve {α β : Type _} {P : α → Prop} {f : α → β → Option α} :
    ∀ {xs : List β}, (∀ a x, P a → x ∈ xs → ∃ b, f a x = some b ∧ P b) →
    ∀ a, P a → ∃ b, xs.foldlM f a = some b ∧ P b := by
  intro xs
  induction xs with
  | nil => intro _ a ha; exact ⟨a, rfl, ha⟩
  | cons x xs ih =>
    intro hf a ha
    obtain ⟨b, hb, hPb⟩ := hf a x ha (by simp)
    obtain ⟨c, hc, hPc⟩ := ih (fun a y hA hy => hf a y hA (by simp [hy])) b hPb
    refine ⟨c, ?_, hPc⟩
    rw [List.foldlM_cons]
    simp [hb, hc]

theorem foldRangeOpt_preserve {P : α → Prop} (f : α → Nat → Option α) (lo hi : Nat)
    (hf : ∀ a x, P a → lo ≤ x → x < hi → ∃ b, f a x = some b ∧ P b) :
    ∀ a, P a → ∃ b, foldRangeOpt lo hi f a = some b ∧ P b := by
  intro a ha
  refine foldlM_preserve (fun a x hA hx => ?_) a ha
  have hm := List.mem_range'_1.mp hx
  exact hf a x hA hm.1 (by omega)

/-! ### Shape lemmas for the grid-editing steps -/

theorem clearAt_some {row : List Cell} {x : Nat} (hx : x < row.length) :
    ∃ row1, clearAt row x = some row1 ∧ row1.length = row.length := by
  refine ⟨row.set x (clearCell (row.get ⟨x, hx⟩)), ?_, by simp⟩
  simp [clearAt, vecGet_some hx, vecSet_some hx]

theorem gridOK_set {rows cols : Nat} {g : List (List Cell)} {i : Nat} {row : List Cell}
    (hg : GridOK rows cols g) (hrow : row.length = cols) :
    GridOK rows cols (g.set i row) := by
  obtain ⟨hlen, hmem⟩ := hg
  refine ⟨by simp [hlen], fun r hr => ?_⟩
  rcases List.mem_or_eq_of_mem_set hr with h | h
  · exact hmem r h
  · simp [h, hrow]


theorem vecGet_mem {l : List α} {i : Nat} (h : i < l.length) :
    ∃ a, vecGet l i = some a ∧ a ∈ l :=
  ⟨l.get ⟨i, h⟩, vecGet_some h, List.get_mem l i h⟩

theorem vecRemove_spec {l : List α} {i : Nat} (h : i < l.length) :
    ∃ a, vecRemove l i = some (a, l.eraseIdx i) ∧ a ∈ l :=
  ⟨l.get ⟨i, h⟩, vecRemove_some h, List.get_mem l i h⟩

theorem length_eraseIdx_of_lt {l : List α} {i : Nat} (h : i < l.length) :
    (l.eraseIdx i).length = l.length - 1 := by
  rw [List.length_eraseIdx]; simp [h]

theorem clearRowAt_ok {rows cols : Nat} {g : List (List Cell)} {y : Nat}
    (hg : GridOK rows cols g) (hy : y < rows) :
    ∃ g2, clearRowAt g y = some g2 ∧ GridOK rows cols g2 := by
  have hlen := hg.1
  have hylt : y < g.length := by omega
  obtain ⟨row, hget, hmem⟩ := vecGet_mem hylt
  have hrlen : row.length = cols := hg.2 row hmem
  refine ⟨g.set y (row.map clearCell), ?_, gridOK_set hg (by simp [hrlen])⟩
  simp [clearRowAt, hget, vecSet_some hylt]

theorem clearRowRange_ok {rows cols : Nat} {g : List (List Cell)} (y lo hi : Nat)
    (hg : GridOK rows cols g) (hy : y < rows) (hhi : hi ≤ cols) :
    ∃ g2, clearRowRange g y lo hi = some g2 ∧ GridOK rows cols g2 := by
  have hlen := hg.1
  have hylt : y < g.length := by omega
  obtain ⟨row, hget, hmem⟩ := vecGet_mem hylt
  have hrlen : row.length = cols := hg.2 row hmem
  obtain ⟨row1, hfold, hr1len⟩ :=
    foldRangeOpt_preserve (P := fun r : List Cell => r.length = cols)
      clearAt lo hi
      (fun r x hP hlo hxhi => by
        obtain ⟨r2, hcl, hl2⟩ := clearAt_some (show x < r.length by omega)
        exact ⟨r2, hcl, by omega⟩) row hrlen
  refine ⟨g.set y row1, ?_, gridOK_set hg hr1len⟩
  simp [clearRowRange, hget, hfold, vecSet_some hylt]

theorem edBelow_ok {t : Terminal} (hg : GridOK t.rows t.cols t.grid)
    (hy : t.cursor_y < t.rows) :
    ∃ g, edBelow t = some g ∧ GridOK t.rows t.cols g := by
  obtain ⟨g1, h1, hg1⟩ := clearRowRange_ok t.cursor_y t.cursor_x t.cols hg hy le_rfl
  obtain ⟨g2, h2, hg2⟩ :=
    foldRangeOpt_preserve (P := GridOK t.rows t.cols)
      clearRowAt (t.cursor_y + 1) t.rows
      (fun g y hP hlo hhi => clearRowAt_ok hP hhi) g1 hg1
  exact ⟨g2, by simp [edBelow, hy, h1, h2], hg2⟩

theorem elLine_ok {t : Terminal} (hg : GridOK t.rows t.cols t.grid)
    (hy : t.cursor_y < t.rows) (hx : t.cursor_x ≤ t.cols) (param : Nat) :
    ∃ g, elLine t param = some g ∧ GridOK t.rows t.cols g := by
  by_cases h2 : param = 2
  · obtain ⟨g2, hh, hok⟩ := clearRowAt_ok hg hy
    exact ⟨g2, by simp [elLine, h2, hh], hok⟩
  by_cases h1 : param = 1
  · obtain ⟨g2, hh, hok⟩ := clearRowRange_ok t.cursor_y 0 t.cursor_x hg hy hx
    exact ⟨g2, by simp [elLine, h2, h1, hh], hok⟩
  · obtain ⟨g2, hh, hok⟩ := clearRowRange_ok t.cursor_y t.cursor_x t.cols hg hy le_rfl
    exact ⟨g2, by simp [elLine, h2, h1, hh], hok⟩

theorem ilStep_ok {t : Terminal} {g : List (List Cell)}
    (hg : GridOK t.rows t.cols g) (hy : t.cursor_y < t.rows)
    (hb : t.scroll_bottom < t.rows) :
    ∃ g2, ilStep t g = some g2 ∧ GridOK t.rows t.cols g2 := by
  have hlen := hg.1
  have hblt : t.scroll_bottom < g.length := by omega
  obtain ⟨a, hrem, _⟩ := vecRemove_spec hblt
  have herase := length_eraseIdx_of_lt hblt
  have hins : t.cursor_y ≤ (g.eraseIdx t.scroll_bottom).length := by omega
  refine ⟨(g.eraseIdx t.scroll_bottom).insertIdx t.cursor_y
      (List.replicate t.cols t.blank_cell), ?_, ?_, ?_⟩
  · simp [ilStep, hrem, vecInsert_some hins]
  · rw [List.length_insertIdx _ _ hins]; omega
  · intro row hrow
    rcases (List.mem_insertIdx hins).mp hrow with h | h
    · simp [h]
    · exact hg.2 row (List.eraseIdx_subset _ _ h)

theorem dlStep_ok {t : Terminal} {g : List (List Cell)}
    (hg : GridOK t.rows t.cols g) (hy : t.cursor_y < t.rows)
    (hb : t.scroll_bottom < t.rows) :
    ∃ g2, dlStep t g = some g2 ∧ GridOK t.rows t.cols g2 := by
  have hlen := hg.1
  have hylt : t.cursor_y < g.length := by omega
  obtain ⟨a, hrem, _⟩ := vecRemove_spec hylt
  have herase := length_eraseIdx_of_lt hylt
  have hins : t.scroll_bottom ≤ (g.eraseIdx t.cursor_y).length := by omega
  refine ⟨(g.eraseIdx t.cursor_y).insertIdx t.scroll_bottom
      (List.replicate t.cols t.blank_cell), ?_, ?_, ?_⟩
  · simp [dlStep, hrem, vecInsert_some hins]
  · rw [List.length_insertIdx _ _ hins]; omega
  · intro row hrow
    rcases (List.mem_insertIdx hins).mp hrow with h | h
    · simp [h]
    · exact hg.2 row (List.eraseIdx_subset _ _ h)

theorem dchStep_ok {rows cols cy : Nat} (cx : Nat) (blank : Cell)
    {g : List (List Cell)}
    (hg : GridOK rows cols g) (hy : cy < rows) :
    ∃ g2, dchStep cx cy blank g = some g2 ∧ GridOK rows cols g2 := by
  have hlen := hg.1
  have hylt : cy < g.length := by omega
  obtain ⟨row, hget, hmem⟩ := vecGet_mem hylt
  have hrlen : row.length = cols := hg.2 row hmem
  by_cases hcx : cx < row.length
  · obtain ⟨a, hrem, _⟩ := vecRemove_spec hcx
    have herase := length_eraseIdx_of_lt hcx
    refine ⟨g.set cy ((row.eraseIdx cx) ++ [blank]), ?_, gridOK_set hg ?_⟩
    · simp [dchStep, hget, hcx, hrem, vecSet_some hylt]
    · simp [herase, hrlen]; omega
  · exact ⟨g, by simp [dchStep, hget, hcx], hg⟩

theorem ichStep_ok {rows cols cy : Nat} (cx : Nat) (blank : Cell)
    {g : List (List Cell)}
    (hg : GridOK rows cols g) (hy : cy < rows) :
    ∃ g2, ichStep cols cx cy blank g = some g2 ∧ GridOK rows cols g2 := by
  have hlen := hg.1
  have hylt : cy < g.length := by omega
  obtain ⟨row, hget, hmem⟩ := vecGet_mem hylt
  have hrlen : row.length = cols := hg.2 row hmem
  by_cases hcx : cx < cols
  · have hins : cx ≤ row.length := by omega
    refine ⟨g.set cy ((row.insertIdx cx blank).dropLast), ?_, gridOK_set hg ?_⟩
    · simp [ichStep, hcx, hget, vecInsert_some hins, vecSet_some hylt]
    · rw [List.length_dropLast, List.length_insertIdx _ _ hins]; simp [hrlen]
  · exact ⟨g, by simp [ichStep, hcx], hg⟩

/-! ### new_line characterization -/

theorem new_line_scroll {t : Terminal} (hI : TermInv t)
    (hy : t.cursor_y = t.scroll_bottom) :
    ∃ removed, vecGet t.grid t.scroll_top = some removed ∧
      t.new_line = some { t with
        grid := (t.grid.eraseIdx t.scroll_top).insertIdx t.scroll_bottom
          (List.replicate t.cols t.blank_cell),
        history := if t.scroll_top = 0
          then (if t.history.length > 10000 then t.history.tail else t.history)
            ++ [removed]
          else t.history } := by
  obtain ⟨hc, hr, ⟨hlen, hmem⟩, hx, hyr, hst, hsb⟩ := hI
  have hstlt : t.scroll_top < t.grid.length := by omega
  have herase := length_eraseIdx_of_lt hstlt
  have hins : t.scroll_bottom ≤ (t.grid.eraseIdx t.scroll_top).length := by omega
  refine ⟨t.grid.get ⟨t.scroll_top, hstlt⟩, vecGet_some hstlt, ?_⟩
  simp only [Terminal.new_line, if_pos hy, vecRemove_some hstlt, vecInsert_some hins]

theorem new_line_else {t : Terminal} (hy : t.cursor_y ≠ t.scroll_bottom) :
    t.new_line = some { t with
      cursor_y := if t.cursor_y + 1 ≥ t.rows then t.rows - 1 else t.cursor_y + 1 } := by
  simp [Terminal.new_line, hy]

theorem new_line_ok {t : Terminal} (hI : TermInv t) :
    ∃ t', t.new_line = some t' ∧ TermInv t' ∧ t'.rows = t.rows ∧ t'.cols = t.cols ∧
      t'.cursor_x = t.cursor_x ∧ t'.cursor_y < t.rows := by
  obtain ⟨hc, hr, ⟨hlen, hmem⟩, hx, hyr, hst, hsb⟩ := hI
  by_cases hy : t.cursor_y = t.scroll_bottom
  · obtain ⟨removed, hget, heq⟩ :=
      new_line_scroll ⟨hc, hr, ⟨hlen, hmem⟩, hx, hyr, hst, hsb⟩ hy
    refine ⟨_, heq, ⟨hc, hr, ⟨?_, ?_⟩, hx, hyr, hst, hsb⟩, rfl, rfl, rfl, hyr⟩
    · have hstlt : t.scroll_top < t.grid.length := by omega
      have herase := length_eraseIdx_of_lt hstlt
      have hins : t.scroll_bottom ≤ (t.grid.eraseIdx t.scroll_top).length := by omega
      show ((t.grid.eraseIdx t.scroll_top).insertIdx t.scroll_bottom
        (List.replicate t.cols t.blank_cell)).length = t.rows
      rw [List.length_insertIdx _ _ hins]; omega
    · intro row hrow
      have hstlt : t.scroll_top < t.grid.length := by omega
      have herase := length_eraseIdx_of_lt hstlt
      have hins : t.scroll_bottom ≤ (t.grid.eraseIdx t.scroll_top).length := by omega
      rcases (List.mem_insertIdx hins).mp hrow with h | h
      · simp [h]
      · exact hmem row (List.eraseIdx_subset _ _ h)
  · rw [new_line_else hy]
    refine ⟨_, rfl, ⟨hc, hr, ⟨hlen, hmem⟩, hx, ?_, hst, hsb⟩, rfl, rfl, rfl, ?_⟩ <;>
      dsimp only <;> split <;> omega

/-! ### Effects leave non-grid bookkeeping fields alone -/

/-- All fields except the pen (current_*) and mouse_reporting. -/
def nonPen (t : Terminal) :=
  (t.grid, t.history, t.cols, t.rows, t.cursor_x, t.cursor_y, t.scroll_offset,
   t.scroll_top, t.scroll_bottom, t.saved_cursor_x, t.saved_cursor_y, t.title,
   t.selection_start, t.selection_end)

/-- `t'` differs from `t` at most in pen and mouse_reporting. -/
def PenModeOnly (t t' : Terminal) : Prop := nonPen t' = nonPen t

theorem sgrApply_penModeOnly (t : Terminal) (v : Nat) :
    PenModeOnly t (sgrApply t v) := by
  unfold PenModeOnly nonPen sgrApply
  split <;> rfl

theorem sgrStep_penModeOnly {t t' : Terminal} {sub : List Nat}
    (h : sgrStep t sub = some t') : PenModeOnly t t' := by
  unfold sgrStep at h
  cases hh : sub.head? with
  | none => rw [hh] at h; cases h
  | some v =>
    rw [hh] at h
    injection h with h
    exact h ▸ sgrApply_penModeOnly t v

theorem modeStep_penModeOnly {flag : Bool} {t t' : Terminal} {sub : List Nat}
    (h : modeStep flag t sub = some t') : PenModeOnly t t' := by
  unfold modeStep at h
  cases hh : sub.head? with
  | none => rw [hh] at h; cases h
  | some v =>
    rw [hh] at h
    injection h with h
    subst h
    unfold PenModeOnly nonPen
    split <;> rfl

theorem foldlM_rel {α β : Type _} {R : α → α → Prop} (hrefl : ∀ a, R a a)
    (htrans : ∀ {a b c}, R a b → R b c → R a c)
    {f : α → β → Option α}
    (hf : ∀ a x b, f a x = some b → R a b) :
    ∀ {xs : List β} {a b}, xs.foldlM f a = some b → R a b := by
  intro xs
  induction xs with
  | nil =>
    intro a b h
    rw [List.foldlM_nil] at h
    injection h with h
    exact h ▸ hrefl a
  | cons x xs ih =>
    intro a b h
    rw [List.foldlM_cons] at h
    cases hfa : f a x with
    | none => rw [hfa] at h; simp at h
    | some a1 =>
      rw [hfa] at h
      simp only [Option.bind_eq_bind, Option.some_bind] at h
      exact htrans (hf a x a1 hfa) (ih h)

theorem termInv_penModeOnly {t t' : Terminal} (h : PenModeOnly t t')
    (hI : TermInv t) : TermInv t' := by
  unfold PenModeOnly nonPen at h
  simp only [Prod.mk.injEq] at h
  obtain ⟨hgrid, hhist, hcols, hrows, hcx, hcy, hso, hstp, hsb, hsx, hsy, htt,
    hs1, hs2⟩ := h
  unfold TermInv GridOK at hI ⊢
  rw [hgrid, hcols, hrows, hcx, hcy, hstp, hsb]
  exact hI

/-! ### Totality and invariant preservation of the effect operations -/

theorem csiParam_some {params : List (List Nat)} (hw : ∀ sub ∈ params, sub ≠ [])
    (i : Nat) : ∃ p, csiParam params i = some p := by
  cases hg : params[i]? with
  | none => exact ⟨1, by simp [csiParam, hg]⟩
  | some sub =>
    have hg2 : params.get? i = some sub := by simpa using hg
    have hne := hw sub (List.get?_mem hg2)
    cases hh : sub.head? with
    | none => exact absurd (List.head?_eq_none_iff.mp hh) hne
    | some v => exact ⟨if v = 0 then 1 else v, by simp [csiParam, hg, hh]⟩

theorem csiFirstRaw_some {params : List (List Nat)} (hw : ∀ sub ∈ params, sub ≠ []) :
    ∃ p, csiFirstRaw params = some p := by
  cases hg : params.head? with
  | none => exact ⟨0, by simp [csiFirstRaw, hg]⟩
  | some sub =>
    have hne := hw sub (List.mem_of_mem_head? hg)
    cases hh : sub.head? with
    | none => exact absurd (List.head?_eq_none_iff.mp hh) hne
    | some v => exact ⟨v, by simp [csiFirstRaw, hg, hh]⟩

theorem gridOK_map_clear {rows cols : Nat} {g : List (List Cell)}
    (hg : GridOK rows cols g) :
    GridOK rows cols (g.map (fun row => row.map clearCell)) := by
  refine ⟨by simp [hg.1], fun r hr => ?_⟩
  obtain ⟨orig, horig, rfl⟩ := List.mem_map.mp hr
  simp [hg.2 orig horig]

theorem modeStep_ok {flag : Bool} {a : Terminal} {sub : List Nat}
    (hA : TermInv a) (hne : sub ≠ []) :
    ∃ b, modeStep flag a sub = some b ∧ TermInv b := by
  cases hh : sub.head? with
  | none => exact absurd (List.head?_eq_none_iff.mp hh) hne
  | some v =>
    have heq : modeStep flag a sub = some (if v = 1000 ∨ v = 1002 ∨ v = 1006 ∨ v = 1015
        then { a with mouse_reporting := flag } else a) := by
      simp [modeStep, hh]
    exact ⟨_, heq, termInv_penModeOnly (modeStep_penModeOnly heq) hA⟩

theorem sgrStep_ok {a : Terminal} {sub : List Nat}
    (hA : TermInv a) (hne : sub ≠ []) :
    ∃ b, sgrStep a sub = some b ∧ TermInv b := by
  cases hh : sub.head? with
  | none => exact absurd (List.head?_eq_none_iff.mp hh) hne
  | some v =>
    have heq : sgrStep a sub = some (sgrApply a v) := by simp [sgrStep, hh]
    exact ⟨_, heq, termInv_penModeOnly (sgrStep_penModeOnly heq) hA⟩

theorem perform_csi_ok {t : Terminal} {params : List (List Nat)} {action : Char}
    (hI : TermInv t) (hw : ∀ sub ∈ params, sub ≠ []) :
    ∃ t', perform_csi t params action = some t' ∧ TermInv t' := by
  obtain ⟨hc, hr, hg, hx, hy, hst, hsb⟩ := hI
  have hI : TermInv t := ⟨hc, hr, hg, hx, hy, hst, hsb⟩
  unfold perform_csi
  split
  · -- A
    obtain ⟨p, hp⟩ := csiParam_some hw 0
    rw [hp]
    exact ⟨_, rfl, ⟨hc, hr, hg, hx, by (try dsimp only); omega, hst, hsb⟩⟩
  · -- B
    obtain ⟨p, hp⟩ := csiParam_some hw 0
    rw [hp]
    exact ⟨_, rfl, ⟨hc, hr, hg, hx, by (try dsimp only); omega, hst, hsb⟩⟩
  · -- C
    obtain ⟨p, hp⟩ := csiParam_some hw 0
    rw [hp]
    exact ⟨_, rfl, ⟨hc, hr, hg, by (try dsimp only); omega, hy, hst, hsb⟩⟩
  · -- D
    obtain ⟨p, hp⟩ := csiParam_some hw 0
    rw [hp]
    exact ⟨_, rfl, ⟨hc, hr, hg, by (try dsimp only); omega, hy, hst, hsb⟩⟩
  · -- H
    obtain ⟨p0, hp0⟩ := csiParam_some hw 0
    obtain ⟨p1, hp1⟩ := csiParam_some hw 1
    simp only [cupDispatch, hp0, hp1]
    exact ⟨_, rfl, ⟨hc, hr, hg, by (try dsimp only); omega, by (try dsimp only); omega, hst, hsb⟩⟩
  · -- f
    obtain ⟨p0, hp0⟩ := csiParam_some hw 0
    obtain ⟨p1, hp1⟩ := csiParam_some hw 1
    simp only [cupDispatch, hp0, hp1]
    exact ⟨_, rfl, ⟨hc, hr, hg, by (try dsimp only); omega, by (try dsimp only); omega, hst, hsb⟩⟩
  · -- G
    obtain ⟨p, hp⟩ := csiParam_some hw 0
    rw [hp]
    exact ⟨_, rfl, ⟨hc, hr, hg, by (try dsimp only); omega, hy, hst, hsb⟩⟩
  · -- d
    obtain ⟨p, hp⟩ := csiParam_some hw 0
    rw [hp]
    exact ⟨_, rfl, ⟨hc, hr, hg, hx, by (try dsimp only); omega, hst, hsb⟩⟩
  · -- J
    obtain ⟨param, hp⟩ := csiFirstRaw_some hw
    by_cases h2 : param = 2
    · simp only [hp, if_pos h2]
      exact ⟨_, rfl, ⟨hc, hr, gridOK_map_clear hg, by (try dsimp only); omega, by (try dsimp only); omega, hst, hsb⟩⟩
    · obtain ⟨g2, hg2, hok⟩ := edBelow_ok hg hy
      simp only [hp, if_neg h2, hg2]
      exact ⟨_, rfl, ⟨hc, hr, hok, hx, hy, hst, hsb⟩⟩
  · -- K
    obtain ⟨param, hp⟩ := csiFirstRaw_some hw
    obtain ⟨g2, hg2, hok⟩ := elLine_ok hg hy hx param
    simp only [hp, hg2]
    exact ⟨_, rfl, ⟨hc, hr, hok, hx, hy, hst, hsb⟩⟩
  · -- L
    obtain ⟨count, hp⟩ := csiParam_some hw 0
    by_cases hreg : t.scroll_top ≤ t.cursor_y ∧ t.cursor_y ≤ t.scroll_bottom
    · obtain ⟨g2, hg2, hok⟩ :=
        iterOpt_preserve (P := GridOK t.rows t.cols)
          (fun g hP => ilStep_ok hP hy hsb) count t.grid hg
      simp only [hp, if_pos hreg, hg2]
      exact ⟨_, rfl, ⟨hc, hr, hok, hx, hy, hst, hsb⟩⟩
    · simp only [hp, if_neg hreg]
      exact ⟨t, rfl, hI⟩
  · -- M
    obtain ⟨count, hp⟩ := csiParam_some hw 0
    by_cases hreg : t.scroll_top ≤ t.cursor_y ∧ t.cursor_y ≤ t.scroll_bottom
    · obtain ⟨g2, hg2, hok⟩ :=
        iterOpt_preserve (P := GridOK t.rows t.cols)
          (fun g hP => dlStep_ok hP hy hsb) count t.grid hg
      simp only [hp, if_pos hreg, hg2]
      exact ⟨_, rfl, ⟨hc, hr, hok, hx, hy, hst, hsb⟩⟩
    · simp only [hp, if_neg hreg]
      exact ⟨t, rfl, hI⟩
  · -- P
    obtain ⟨count, hp⟩ := csiParam_some hw 0
    obtain ⟨g2, hg2, hok⟩ :=
      iterOpt_preserve (P := GridOK t.rows t.cols)
        (fun g hP => dchStep_ok t.cursor_x t.blank_cell hP hy)
        count t.grid hg
    simp only [hp, hg2]
    exact ⟨_, rfl, ⟨hc, hr, hok, hx, hy, hst, hsb⟩⟩
  · -- @
    obtain ⟨count, hp⟩ := csiParam_some hw 0
    obtain ⟨g2, hg2, hok⟩ :=
      iterOpt_preserve (P := GridOK t.rows t.cols)
        (fun g hP => ichStep_ok t.cursor_x t.blank_cell hP hy)
        count t.grid hg
    simp only [hp, hg2]
    exact ⟨_, rfl, ⟨hc, hr, hok, hx, hy, hst, hsb⟩⟩
  · -- r
    obtain ⟨p0, hp0⟩ := csiParam_some hw 0
    have hbot : ∃ bot, (if params.length > 1
        then (csiParam params 1).map (fun p1 => p1 - 1)
        else some (t.rows - 1)) = some bot := by
      by_cases hlen : params.length > 1
      · obtain ⟨p1, hp1⟩ := csiParam_some hw 1
        rw [if_pos hlen, hp1]
        exact ⟨p1 - 1, rfl⟩
      · exact ⟨t.rows - 1, by rw [if_neg hlen]⟩
    obtain ⟨bot, hbot⟩ := hbot
    simp only [hp0, hbot]
    by_cases hv : min bot (t.rows - 1) ≤ min (p0 - 1) (t.rows - 1)
    · rw [if_pos hv]
      exact ⟨_, rfl, ⟨hc, hr, hg, by (try dsimp only); omega, by (try dsimp only); omega, by (try dsimp only); omega, by (try dsimp only); omega⟩⟩
    · rw [if_neg hv]
      exact ⟨_, rfl, ⟨hc, hr, hg, by (try dsimp only); omega, by (try dsimp only); omega, by (try dsimp only); omega, by (try dsimp only); omega⟩⟩
  · -- h
    exact foldlM_preserve (P := TermInv)
      (fun a sub hA hmem => modeStep_ok hA (hw sub hmem)) t hI
  · -- l
    exact foldlM_preserve (P := TermInv)
      (fun a sub hA hmem => modeStep_ok hA (hw sub hmem)) t hI
  · -- m
    by_cases hlen : params.length = 0
    · rw [if_pos hlen]
      exact ⟨_, rfl, ⟨hc, hr, hg, hx, hy, hst, hsb⟩⟩
    · rw [if_neg hlen]
      exact foldlM_preserve (P := TermInv)
        (fun a sub hA hmem => sgrStep_ok hA (hw sub hmem)) t hI
  · -- catchall
    exact ⟨t, rfl, hI⟩

theorem perform_print_ok {t : Terminal} (hI : TermInv t) (c : Char) :
    ∃ t', perform_print t c = some t' ∧ TermInv t' := by
  have hstep : ∃ t1, (if t.cursor_x ≥ t.cols
      then (t.new_line).map (fun u => { u with cursor_x := 0 })
      else some t) = some t1 ∧ TermInv t1 ∧ t1.cursor_x < t1.cols := by
    by_cases hwrap : t.cursor_x ≥ t.cols
    · obtain ⟨u, hu, hIu, hur, huc, hux, huy⟩ := new_line_ok hI
      rw [if_pos hwrap, hu]
      obtain ⟨hc, hr, hg, hx, hy, hst, hsb⟩ := hIu
      exact ⟨_, rfl, ⟨hc, hr, hg, by (try dsimp only); omega, hy, hst, hsb⟩,
        by (try dsimp only); omega⟩
    · rw [if_neg hwrap]
      exact ⟨t, rfl, hI, by omega⟩
  obtain ⟨t1, h1, hI1, hxlt⟩ := hstep
  obtain ⟨hc, hr, hg, hx, hy, hst, hsb⟩ := hI1
  have hylt : t1.cursor_y < t1.grid.length := by have := hg.1; omega
  obtain ⟨row, hgetr, hmemr⟩ := vecGet_mem hylt
  have hrlen : row.length = t1.cols := hg.2 row hmemr
  have hxlt2 : t1.cursor_x < row.length := by omega
  have hsetr := vecSet_some (l := row) (i := t1.cursor_x)
    (a := { char := c, fg := t1.current_fg, bg := t1.current_bg,
            inverse := t1.current_inverse }) hxlt2
  have hsetg := vecSet_some (l := t1.grid) (i := t1.cursor_y)
    (a := row.set t1.cursor_x
      { char := c, fg := t1.current_fg, bg := t1.current_bg,
        inverse := t1.current_inverse }) hylt
  refine ⟨{ t1 with
      grid := t1.grid.set t1.cursor_y (row.set t1.cursor_x
        { char := c, fg := t1.current_fg, bg := t1.current_bg,
          inverse := t1.current_inverse }),
      cursor_x := t1.cursor_x + 1 }, ?_, ?_⟩
  · unfold perform_print
    rw [h1]
    simp only [hgetr, hsetr, hsetg]
  · refine ⟨hc, hr, gridOK_set hg (by simp [hrlen]), ?_, hy, hst, hsb⟩
    dsimp only
    omega

theorem perform_execute_ok {t : Terminal} (hI : TermInv t) (b : Nat) :
    ∃ t', perform_execute t b = some t' ∧ TermInv t' := by
  obtain ⟨hc, hr, hg, hx, hy, hst, hsb⟩ := hI
  have hI : TermInv t := ⟨hc, hr, hg, hx, hy, hst, hsb⟩
  unfold perform_execute
  by_cases h10 : b = 10
  · rw [if_pos h10]
    obtain ⟨t', h, hI', _⟩ := new_line_ok hI
    exact ⟨t', h, hI'⟩
  rw [if_neg h10]
  by_cases h13 : b = 13
  · rw [if_pos h13]
    exact ⟨_, rfl, ⟨hc, hr, hg, by (try dsimp only); omega, hy, hst, hsb⟩⟩
  rw [if_neg h13]
  by_cases h8 : b = 8
  · rw [if_pos h8]
    refine ⟨_, rfl, ?_⟩
    by_cases hxpos : t.cursor_x > 0
    · rw [if_pos hxpos]
      exact ⟨hc, hr, hg, by (try dsimp only); omega, hy, hst, hsb⟩
    · rw [if_neg hxpos]
      exact hI
  · rw [if_neg h8]
    exact ⟨t, rfl, hI⟩

theorem perform_osc_ok {t : Terminal} (hI : TermInv t) (params : List (List Nat)) :
    ∃ t', perform_osc t params = some t' ∧ TermInv t' := by
  obtain ⟨hc, hr, hg, hx, hy, hst, hsb⟩ := hI
  have hI : TermInv t := ⟨hc, hr, hg, hx, hy, hst, hsb⟩
  unfold perform_osc
  split
  · split
    · split
      · exact ⟨_, rfl, ⟨hc, hr, hg, hx, hy, hst, hsb⟩⟩
      · exact ⟨t, rfl, hI⟩
    · exact ⟨t, rfl, hI⟩
  · exact ⟨t, rfl, hI⟩

theorem applyEffect_ok {t : Terminal} {e : Effect} (hI : TermInv t) (hw : e.wf) :
    ∃ t', applyEffect t e = some t' ∧ TermInv t' := by
  cases e with
  | print c => exact perform_print_ok hI c
  | execute b => exact perform_execute_ok hI b
  | csi ps a => exact perform_csi_ok hI hw
  | osc ps => exact perform_osc_ok hI ps

/-! ### Fields no effect ever writes -/

/-- The Terminal fields that no Perform effect assigns:
rows, cols, scroll_offset, saved cursor, selection. -/
def effFields (t : Terminal) :=
  (t.rows, t.cols, t.scroll_offset, t.saved_cursor_x, t.saved_cursor_y,
   t.selection_start, t.selection_end)

/-- `t'` agrees with `t` on every field no effect assigns. -/
def EffFixed (t t' : Terminal) : Prop := effFields t' = effFields t

theorem effFixed_refl (t : Terminal) : EffFixed t t := rfl

theorem effFixed_trans {a b c : Terminal} (h1 : EffFixed a b) (h2 : EffFixed b c) :
    EffFixed a c := h2.trans h1

theorem effFixed_of_penModeOnly {a b : Terminal} (h : PenModeOnly a b) :
    EffFixed a b := by
  unfold PenModeOnly nonPen at h
  unfold EffFixed effFields
  simp only [Prod.mk.injEq] at h ⊢
  obtain ⟨h1, h2, h3, h4, h5, h6, h7, h8, h9, h10, h11, h12, h13, h14⟩ := h
  exact ⟨h4, h3, h7, h10, h11, h13, h14⟩

theorem new_line_fixed {t t' : Terminal} (h : t.new_line = some t') :
    EffFixed t t' := by
  unfold Terminal.new_line at h
  split at h
  · split at h
    · cases h
    · dsimp only at h
      repeat' split at h
      all_goals first
        | exact Option.noConfusion h
        | (injection h with h; subst h; exact rfl)
  · injection h with h
    subst h
    exact rfl

theorem perform_print_fixed {t t' : Terminal} {c : Char}
    (h : perform_print t c = some t') : EffFixed t t' := by
  unfold perform_print at h
  split at h
  · cases h
  · rename_i t1 heq
    have hfix1 : EffFixed t t1 := by
      split at heq
      · obtain ⟨u, hu, hmap⟩ := Option.map_eq_some'.mp heq
        have := new_line_fixed hu
        subst hmap
        exact this
      · injection heq with heq
        subst heq
        rfl
    split at h
    · cases h
    · split at h
      · cases h
      · split at h
        · cases h
        · injection h with h
          subst h
          exact hfix1

theorem perform_csi_fixed {t t' : Terminal} {params : List (List Nat)} {action : Char}
    (h : perform_csi t params action = some t') : EffFixed t t' := by
  unfold perform_csi cupDispatch at h
  split at h <;>
    first
    | exact Option.noConfusion h
    | (injection h with h; subst h; exact rfl)
    | (obtain ⟨w, hw, hmap⟩ := Option.map_eq_some'.mp h; subst hmap; exact rfl)
    | (exact foldlM_rel effFixed_refl (fun hab hbc => effFixed_trans hab hbc)
        (fun a x b hb => effFixed_of_penModeOnly (modeStep_penModeOnly hb)) h)
    | ((try dsimp only at h)
       repeat' split at h
       all_goals first
         | exact Option.noConfusion h
         | (injection h with h; subst h; exact rfl)
         | (obtain ⟨w, hw, hmap⟩ := Option.map_eq_some'.mp h; subst hmap; exact rfl)
         | (exact foldlM_rel effFixed_refl (fun hab hbc => effFixed_trans hab hbc)
             (fun a x b hb => effFixed_of_penModeOnly (sgrStep_penModeOnly hb)) h))

theorem perform_execute_fixed {t t' : Terminal} {b : Nat}
    (h : perform_execute t b = some t') : EffFixed t t' := by
  unfold perform_execute at h
  repeat' split at h
  all_goals first
    | exact new_line_fixed h
    | (injection h with h; subst h; exact rfl)

theorem perform_osc_fixed {t t' : Terminal} {params : List (List Nat)}
    (h : perform_osc t params = some t') : EffFixed t t' := by
  unfold perform_osc at h
  repeat' split at h
  all_goals (injection h with h; subst h; exact rfl)

theorem applyEffect_fixed {t t' : Terminal} {e : Effect}
    (h : applyEffect t e = some t') : EffFixed t t' := by
  cases e with
  | print c => exact perform_print_fixed h
  | execute b => exact perform_execute_fixed h
  | csi ps a => exact perform_csi_fixed h
  | osc ps => exact perform_osc_fixed h

theorem applyEffects_ok {es : List Effect} :
    ∀ {t : Terminal}, TermInv t → (∀ e ∈ es, e.wf) →
    ∃ t', applyEffects t es = some t' ∧ TermInv t' ∧
      t'.rows = t.rows ∧ t'.cols = t.cols := by
  induction es with
  | nil => intro t hI _; exact ⟨t, rfl, hI, rfl, rfl⟩
  | cons e es ih =>
    intro t hI hw
    obtain ⟨t1, h1, hI1⟩ := applyEffect_ok hI (hw e (by simp))
    obtain ⟨t2, h2, hI2, hr2, hc2⟩ := ih hI1 (fun e2 he2 => hw e2 (by simp [he2]))
    have hfix := applyEffect_fixed h1
    unfold EffFixed effFields at hfix
    simp only [Prod.mk.injEq] at hfix
    refine ⟨t2, ?_, hI2, by omega, by omega⟩
    simp [applyEffects, h1, h2]

/-! ### Claim theorems -/

theorem termInv_new {c r : Nat} (hc : 1 ≤ c) (hr : 1 ≤ r) :
    TermInv (Terminal.new c r) := by
  refine ⟨hc, hr, ⟨by simp [Terminal.new], ?_⟩, by simp [Terminal.new],
    by simp [Terminal.new]; omega, by simp [Terminal.new], by simp [Terminal.new]; omega⟩
  intro row hrow
  simp only [Terminal.new] at hrow
  rw [List.eq_of_mem_replicate hrow]
  simp [Terminal.new]

/-- Claim C2: starting from Terminal::new with cols ≥ 1 and rows ≥ 1, any
finite sequence of parser effects (print, execute, csi_dispatch,
osc_dispatch, with the well-formed parameters vte produces) runs without
panicking, and afterwards the grid has exactly `rows` rows, every row has
exactly `cols` cells, cursor_x ≤ cols and cursor_y < rows. -/
theorem C2_effects_preserve_invariants (c r : Nat) (hc : 1 ≤ c) (hr : 1 ≤ r)
    (es : List Effect) (hw : ∀ e ∈ es, e.wf) :
    ∃ t', applyEffects (Terminal.new c r) es = some t' ∧
      t'.grid.length = r ∧ (∀ row ∈ t'.grid, row.length = c) ∧
      t'.cursor_x ≤ c ∧ t'.cursor_y < r := by
  obtain ⟨t', h, hI, hrows, hcols⟩ := applyEffects_ok (termInv_new hc hr) hw
  simp only [Terminal.new] at hrows hcols
  obtain ⟨_, _, ⟨hlen, hmem⟩, hx, hy, _, _⟩ := hI
  exact ⟨t', h, by omega, fun row hrow => by rw [hmem row hrow, hcols],
    by omega, by omega⟩

/-- Witness for C2 at a concrete size and effect sequence. -/
theorem C2_effects_preserve_invariants_witness :
    ∃ t', applyEffects (Terminal.new 2 2)
        [Effect.print 'a', Effect.execute 10, Effect.csi [[2]] 'J',
         Effect.osc [[48], [65]]] = some t' ∧
      t'.grid.length = 2 ∧ (∀ row ∈ t'.grid, row.length = 2) ∧
      t'.cursor_x ≤ 2 ∧ t'.cursor_y < 2 :=
  C2_effects_preserve_invariants 2 2 (by decide) (by decide)
    [Effect.print 'a', Effect.execute 10, Effect.csi [[2]] 'J',
     Effect.osc [[48], [65]]] (by decide)

/-- Claim C6: dispatching CSI `2 J` (ED all) on any Terminal whose
invariants hold sets every cell to the default Cell regardless of the pen,
homes the cursor to (0,0), and leaves history, margins, pen, title and
mouse_reporting unchanged. -/
theorem C6_ed2_clears_screen (t : Terminal) (hI : TermInv t) :
    applyEffect t (Effect.csi [[2]] 'J') =
      some { t with grid := t.grid.map (fun row => row.map (fun _ => Cell.default)),
                    cursor_x := 0, cursor_y := 0 } ∧
    ∀ t', applyEffect t (Effect.csi [[2]] 'J') = some t' →
      (∀ row ∈ t'.grid, ∀ cell ∈ row, cell = Cell.default) ∧
      t'.history = t.history ∧ t'.scroll_top = t.scroll_top ∧
      t'.scroll_bottom = t.scroll_bottom ∧ t'.current_fg = t.current_fg ∧
      t'.current_bg = t.current_bg ∧ t'.current_inverse = t.current_inverse ∧
      t'.title = t.title ∧ t'.mouse_reporting = t.mouse_reporting ∧
      t'.cursor_x = 0 ∧ t'.cursor_y = 0 := by
  have heq : applyEffect t (Effect.csi [[2]] 'J') =
      some { t with grid := t.grid.map (fun row => row.map (fun _ => Cell.default)),
                    cursor_x := 0, cursor_y := 0 } := rfl
  refine ⟨heq, fun t' ht' => ?_⟩
  rw [heq] at ht'
  injection ht' with ht'
  subst ht'
  refine ⟨?_, rfl, rfl, rfl, rfl, rfl, rfl, rfl, rfl, rfl, rfl⟩
  intro row hrow cell hcell
  obtain ⟨orig, _, rfl⟩ := List.mem_map.mp hrow
  obtain ⟨oc, _, rfl⟩ := List.mem_map.mp hcell
  rfl

/-- Witness for C6 at a concrete terminal. -/
theorem C6_ed2_clears_screen_witness :
    applyEffect (Terminal.new 2 2) (Effect.csi [[2]] 'J') =
      some { Terminal.new 2 2 with
             grid := (Terminal.new 2 2).grid.map
               (fun row => row.map (fun _ => Cell.default)),
             cursor_x := 0, cursor_y := 0 } ∧
    ∀ t', applyEffect (Terminal.new 2 2) (Effect.csi [[2]] 'J') = some t' →
      (∀ row ∈ t'.grid, ∀ cell ∈ row, cell = Cell.default) ∧
      t'.history = (Terminal.new 2 2).history ∧
      t'.scroll_top = (Terminal.new 2 2).scroll_top ∧
      t'.scroll_bottom = (Terminal.new 2 2).scroll_bottom ∧
      t'.current_fg = (Terminal.new 2 2).current_fg ∧
      t'.current_bg = (Terminal.new 2 2).current_bg ∧
      t'.current_inverse = (Terminal.new 2 2).current_inverse ∧
      t'.title = (Terminal.new 2 2).title ∧
      t'.mouse_reporting = (Terminal.new 2 2).mouse_reporting ∧
      t'.cursor_x = 0 ∧ t'.cursor_y = 0 :=
  C6_ed2_clears_screen (Terminal.new 2 2) (by decide)

/-- Claim C1: new_line on a Terminal with cols ≥ 1, rows ≥ 2 whose
invariants hold.  At the bottom margin it removes the row at scroll_top,
inserts a blank row (pen colors) at scroll_bottom, keeps cursor_y, and
appends the removed row to history iff scroll_top = 0; otherwise it just
increments cursor_y clamped to rows-1 and leaves history and grid alone. -/
theorem C1_new_line_semantics (t : Terminal) (hc : 1 ≤ t.cols) (hr : 2 ≤ t.rows)
    (hI : TermInv t) :
    (t.cursor_y = t.scroll_bottom →
      ∃ removed, t.grid.get? t.scroll_top = some removed ∧
        t.new_line = some { t with
          grid := (t.grid.eraseIdx t.scroll_top).insertIdx t.scroll_bottom
            (List.replicate t.cols t.blank_cell),
          history := if t.scroll_top = 0
            then (if t.history.length > 10000 then t.history.tail else t.history)
              ++ [removed]
            else t.history }) ∧
    (t.cursor_y ≠ t.scroll_bottom →
      t.new_line = some { t with cursor_y := min (t.cursor_y + 1) (t.rows - 1) }) := by
  constructor
  · intro hy
    obtain ⟨removed, hget, heq⟩ := new_line_scroll hI hy
    exact ⟨removed, hget, heq⟩
  · intro hy
    rw [new_line_else hy]
    have hmin : (if t.cursor_y + 1 ≥ t.rows then t.rows - 1 else t.cursor_y + 1) =
        min (t.cursor_y + 1) (t.rows - 1) := by
      obtain ⟨_, _, _, _, hyr, _, _⟩ := hI
      split <;> omega
    rw [hmin]

/-- Witness for C1 at a concrete terminal. -/
theorem C1_new_line_semantics_witness :
    ((Terminal.new 2 2).cursor_y = (Terminal.new 2 2).scroll_bottom →
      ∃ removed, (Terminal.new 2 2).grid.get? (Terminal.new 2 2).scroll_top =
          some removed ∧
        (Terminal.new 2 2).new_line = some { Terminal.new 2 2 with
          grid := ((Terminal.new 2 2).grid.eraseIdx (Terminal.new 2 2).scroll_top).insertIdx
            (Terminal.new 2 2).scroll_bottom
            (List.replicate (Terminal.new 2 2).cols (Terminal.new 2 2).blank_cell),
          history := if (Terminal.new 2 2).scroll_top = 0
            then (if (Terminal.new 2 2).history.length > 10000
              then (Terminal.new 2 2).history.tail
              else (Terminal.new 2 2).history) ++ [removed]
            else (Terminal.new 2 2).history }) ∧
    ((Terminal.new 2 2).cursor_y ≠ (Terminal.new 2 2).scroll_bottom →
      (Terminal.new 2 2).new_line = some { Terminal.new 2 2 with
        cursor_y := min ((Terminal.new 2 2).cursor_y + 1)
          ((Terminal.new 2 2).rows - 1) }) :=
  C1_new_line_semantics (Terminal.new 2 2) (by decide) (by decide) (by decide)

/-! ### C3: the 10000-row history bound -/

theorem new_line_1x1_step {t : Terminal} (hy : t.cursor_y = 0) (hsb : t.scroll_bottom = 0)
    (hst : t.scroll_top = 0) (hg : t.grid.length = 1) :
    ∃ t2, t.new_line = some t2 ∧
      t2.history.length =
        (if t.history.length > 10000 then t.history.length - 1
         else t.history.length) + 1 ∧
      t2.cursor_y = 0 ∧ t2.scroll_bottom = 0 ∧ t2.scroll_top = 0 ∧
      t2.grid.length = 1 := by
  have hcond : t.cursor_y = t.scroll_bottom := by rw [hy, hsb]
  have hstlt : t.scroll_top < t.grid.length := by omega
  obtain ⟨a, hrem, _⟩ := vecRemove_spec hstlt
  have herase := length_eraseIdx_of_lt hstlt
  have hins : t.scroll_bottom ≤ (t.grid.eraseIdx t.scroll_top).length := by omega
  refine ⟨{ t with
      grid := (t.grid.eraseIdx t.scroll_top).insertIdx t.scroll_bottom
        (List.replicate t.cols t.blank_cell),
      history := (if t.history.length > 10000 then t.history.tail else t.history)
        ++ [a] }, ?_, ?_, ?_, ?_, ?_, ?_⟩
  · simp only [Terminal.new_line, if_pos hcond, hrem, if_pos hst,
      vecInsert_some hins]
  · dsimp only
    by_cases hb : t.history.length > 10000
    · rw [if_pos hb, if_pos hb]
      simp [List.length_tail]
    · rw [if_neg hb, if_neg hb]
      simp
  · exact hy
  · exact hsb
  · exact hst
  · dsimp only
    rw [List.length_insertIdx _ _ hins]
    omega

theorem iterOpt_succ_last (f : α → Option α) : ∀ n a,
    iterOpt f (n + 1) a = (iterOpt f n a).bind f := by
  intro n
  induction n with
  | zero => intro a; cases hfa : f a <;> simp [iterOpt, hfa]
  | succ n ihn =>
    intro a
    cases hfa : f a with
    | none => simp [iterOpt, hfa]
    | some a1 =>
      calc iterOpt f (n + 1 + 1) a = iterOpt f (n + 1) a1 := by
            rw [iterOpt, hfa]
        _ = (iterOpt f n a1).bind f := ihn a1
        _ = (iterOpt f (n + 1) a).bind f := by rw [iterOpt, hfa]

theorem lenArith (n L : Nat) (h : L = min n 10001) :
    (if L > 10000 then L - 1 else L) + 1 = min (n + 1) 10001 := by
  subst h
  split <;> omega

theorem newLineIter_1x1 : ∀ n, ∃ t',
    iterOpt Terminal.new_line n (Terminal.new 1 1) = some t' ∧
    t'.history.length = min n 10001 ∧ t'.cursor_y = 0 ∧ t'.scroll_bottom = 0 ∧
    t'.scroll_top = 0 ∧ t'.grid.length = 1 := by
  intro n
  induction n with
  | zero =>
    refine ⟨Terminal.new 1 1, rfl, ?_, ?_, ?_, ?_, ?_⟩ <;> simp [Terminal.new]
  | succ n ih =>
    obtain ⟨t', hrun, hlen, hy, hsb, hst, hg⟩ := ih
    obtain ⟨t2, hstep, hlen2, hy2, hsb2, hst2, hg2⟩ := new_line_1x1_step hy hsb hst hg
    refine ⟨t2, ?_, ?_, hy2, hsb2, hst2, hg2⟩
    · rw [iterOpt_succ_last Terminal.new_line n (Terminal.new 1 1), hrun]
      exact hstep
    · rw [hlen2]
      exact lenArith n _ hlen

/-- Claim C3 fails on the code: the history eviction test uses
`len > 10_000` before the push, so 10001 consecutive new_line calls at
default margins drive history.length to 10001, exceeding the documented
10000 bound. -/
theorem C3_history_bound_violated :
    ∃ t', iterOpt Terminal.new_line 10001 (Terminal.new 1 1) = some t' ∧
      t'.history.length = 10001 ∧ 10000 < t'.history.length := by
  obtain ⟨t', h, hlen, _⟩ := newLineIter_1x1 10001
  exact ⟨t', h, by omega, by omega⟩

/-! ### C9: osc_dispatch -/

/-- The condition under which osc_dispatch assigns the title: at least two
parameter slices, command "0" (byte 48) or "2" (byte 50), and valid UTF-8
text. -/
def OscSetsTitle (params : List (List Nat)) : Prop :=
  ∃ cmd txt rest, params = cmd :: txt :: rest ∧
    (cmd = [48] ∨ cmd = [50]) ∧ (utf8Decode txt).isSome

/-- Claim C9: osc_dispatch never panics; it changes at most the title;
when it receives at least two parameter slices whose first is "0" or "2"
and whose second is valid UTF-8 it sets the title to the decoded text, and
in every other case the Terminal is completely unchanged. -/
theorem C9_osc_title (t : Terminal) (params : List (List Nat)) :
    ∃ t', perform_osc t params = some t' ∧
      t' = { t with title := t'.title } ∧
      (OscSetsTitle params → ∃ cmd txt rest s, params = cmd :: txt :: rest ∧
        utf8Decode txt = some s ∧ t'.title = s) ∧
      (¬ OscSetsTitle params → t' = t) := by
  match params with
  | [] =>
    refine ⟨t, rfl, rfl, fun h => ?_, fun _ => rfl⟩
    obtain ⟨cmd, txt, rest, heq, _, _⟩ := h
    cases heq
  | [cmd1] =>
    refine ⟨t, rfl, rfl, fun h => ?_, fun _ => rfl⟩
    obtain ⟨cmd, txt, rest, heq, _, _⟩ := h
    cases heq
  | cmd :: txt :: rest =>
    by_cases hcmd : cmd = [48] ∨ cmd = [50]
    · cases hdec : utf8Decode txt with
      | some s =>
        refine ⟨{ t with title := s }, ?_, rfl,
          fun _ => ⟨cmd, txt, rest, s, rfl, hdec, rfl⟩, fun hn => ?_⟩
        · simp [perform_osc, hcmd, hdec]
        · exact absurd ⟨cmd, txt, rest, rfl, hcmd, by simp [hdec]⟩ hn
      | none =>
        refine ⟨t, ?_, rfl, fun h => ?_, fun _ => rfl⟩
        · simp [perform_osc, hcmd, hdec]
        · obtain ⟨cmd2, txt2, rest2, heq, hcmd2, hsome⟩ := h
          injection heq with h1 h2
          injection h2 with h2 h3
          subst h1
          subst h2
          rw [hdec] at hsome
          cases hsome
    · refine ⟨t, ?_, rfl, fun h => ?_, fun _ => rfl⟩
      · simp [perform_osc, hcmd]
      · obtain ⟨cmd2, txt2, rest2, heq, hcmd2, hsome⟩ := h
        injection heq with h1 h2
        subst h1
        exact absurd hcmd2 hcmd

/-! ### C10: selection symmetry -/

theorem selNorm_comm (a b : Nat × Nat) :
    (if a.2 < b.2 ∨ (a.2 = b.2 ∧ a.1 ≤ b.1) then (a, b) else (b, a)) =
    (if b.2 < a.2 ∨ (b.2 = a.2 ∧ b.1 ≤ a.1) then (b, a) else (a, b)) := by
  rcases a with ⟨ac, ar⟩
  rcases b with ⟨bc, br⟩
  dsimp only
  by_cases h1 : ar < br ∨ (ar = br ∧ ac ≤ bc) <;>
    by_cases h2 : br < ar ∨ (br = ar ∧ bc ≤ ac) <;>
    simp only [if_pos, if_neg, h1, h2, if_true, if_false, ite_true, ite_false]
  all_goals simp only [Prod.mk.injEq]
  all_goals refine ⟨⟨?_, ?_⟩, ?_, ?_⟩ <;> omega

/-- Claim C10: is_selected is symmetric in the two selection endpoints:
swapping selection_start and selection_end does not change the result at
any cell. -/
theorem C10_is_selected_symm (t : Terminal) (a b : Nat × Nat) (col row : Nat) :
    Terminal.is_selected
      { t with selection_start := some a, selection_end := some b } col row =
    Terminal.is_selected
      { t with selection_start := some b, selection_end := some a } col row := by
  unfold Terminal.is_selected
  dsimp only
  rw [selNorm_comm a b]

/-! ### C7: SGR-1006 mouse report -/

/-- Claim C7: with mouse_reporting on and Shift not held, the left-press
report is encode_mouse 0, and encode_mouse produces exactly
"ESC [ <" ++ decimal(button) ++ ";" ++ decimal(col+1) ++ ";" ++
decimal(row+1) ++ ("M" for press / "m" for release); in particular a left
press at (col=3, row=7) emits "\x1b[<0;4;8M". -/
theorem C7_mouse_report (b col row : Nat) (release : Bool) (t : Terminal)
    (hrep : t.mouse_reporting = true) :
    encode_mouse b col row release =
      [ '\x1b', '[', '<' ] ++ natDecimal b ++ [ ';' ] ++ natDecimal (col + 1) ++
        [ ';' ] ++ natDecimal (row + 1) ++ [ if release then 'm' else 'M' ] ∧
    mouse_left_press_bytes t false col row = encode_mouse 0 col row false ∧
    encode_mouse 0 3 7 false = "\x1b[<0;4;8M".data := by
  refine ⟨rfl, ?_, by decide⟩
  simp [mouse_left_press_bytes, hrep]

/-- Witness for C7 at a concrete reporting-enabled terminal. -/
theorem C7_mouse_report_witness :
    encode_mouse 0 3 7 false =
      [ '\x1b', '[', '<' ] ++ natDecimal 0 ++ [ ';' ] ++ natDecimal (3 + 1) ++
        [ ';' ] ++ natDecimal (7 + 1) ++ [ if false then 'm' else 'M' ] ∧
    mouse_left_press_bytes { Terminal.new 2 2 with mouse_reporting := true }
      false 3 7 = encode_mouse 0 3 7 false ∧
    encode_mouse 0 3 7 false = "\x1b[<0;4;8M".data :=
  C7_mouse_report 0 3 7 false { Terminal.new 2 2 with mouse_reporting := true } rfl

/-! ### C5: scroll_offset reset on forwarded input -/

/-- Which input events the source resets scroll_offset for. -/
def resetsOffset : InputEvent → Bool
  | InputEvent.textChar _ => true
  | InputEvent.ctrlKey _ => true
  | InputEvent.special k _ _ =>
    match k with
    | Key.Return => true
    | Key.Back => true
    | _ => false
  | InputEvent.pasteShiftInsert _ => true
  | InputEvent.pasteCtrlShiftV _ => false

theorem resetScroll_offset (t : Terminal) : (resetScroll t).scroll_offset = 0 := by
  unfold resetScroll
  split
  · rfl
  · omega

/-- A concrete scrolled-back terminal: one history row, scroll_offset 1. -/
def scrolledTerm : Terminal :=
  { Terminal.new 2 2 with
    scroll_offset := 1
    history := [ List.replicate 2 Cell.default ] }

/-- Claim C5, as stated, is false at a concrete input: Escape is forwarded
to the PTY (bytes nonempty) yet scroll_offset stays 1. -/
theorem C5_counterexample :
    ((handleEvent scrolledTerm (InputEvent.special Key.Escape false false)).2 ≠ []) ∧
    ((handleEvent scrolledTerm
        (InputEvent.special Key.Escape false false)).1.scroll_offset ≠ 0) := by
  decide

/-- Amended claim C5: an input event that writes bytes to the PTY resets
scroll_offset to 0 exactly when it is a printable character, a Ctrl+key
control code, Return, Backspace, or a Shift+Insert paste; the other
forwarded events (Escape, Delete, the arrows, PageUp/PageDown without
Shift, Home, End, Ctrl+Shift+V paste) leave scroll_offset unchanged. -/
theorem C5_offset_reset_on_forward (t : Terminal) (e : InputEvent)
    (h : (handleEvent t e).2 ≠ []) :
    (handleEvent t e).1.scroll_offset =
      if resetsOffset e then 0 else t.scroll_offset := by
  cases e with
  | textChar c =>
    simp only [handleEvent, resetsOffset, if_true]
    exact resetScroll_offset t
  | ctrlKey k =>
    by_cases hk : k ∈ ctrlLoopKeys
    · cases hbyte : ctrl_key_to_byte k with
      | none => simp [handleEvent, hk, hbyte] at h
      | some v =>
        simp only [handleEvent, hk, if_true, hbyte, resetsOffset]
        exact resetScroll_offset t
    · simp [handleEvent, hk] at h
  | special k s c =>
    cases k <;>
      simp only [handleEvent, process_special_key, resetsOffset] at h ⊢ <;>
      (try split_ifs at h ⊢) <;>
      simp_all [resetScroll_offset]
  | pasteShiftInsert clip =>
    cases clip with
    | none => simp [handleEvent] at h
    | some text =>
      simp only [handleEvent, resetsOffset, if_true]
      exact resetScroll_offset t
  | pasteCtrlShiftV clip =>
    cases clip with
    | none => simp [handleEvent] at h
    | some text => simp [handleEvent, resetsOffset]

/-- Witness for the amended C5 at a concrete event. -/
theorem C5_offset_reset_on_forward_witness :
    ((handleEvent scrolledTerm (InputEvent.textChar 'a')).2 ≠ []) ∧
    ((handleEvent scrolledTerm (InputEvent.textChar 'a')).1.scroll_offset =
      if resetsOffset (InputEvent.textChar 'a') then 0
      else scrolledTerm.scroll_offset) :=
  ⟨by decide, C5_offset_reset_on_forward scrolledTerm (InputEvent.textChar 'a')
    (by decide)⟩

/-! ### C4: cursor position after printing n glyphs -/

theorem succ_mod_div {c : Nat} (hc : 0 < c) (k : Nat) :
    ((k % c + 1 < c) → (k + 1) % c = k % c + 1 ∧ (k + 1) / c = k / c) ∧
    ((k % c + 1 = c) → (k + 1) % c = 0 ∧ (k + 1) / c = k / c + 1) := by
  have he : k + 1 = (k % c + 1) + c * (k / c) := by
    have := Nat.div_add_mod k c
    omega
  constructor
  · intro hlt
    constructor
    · rw [he, Nat.add_mul_mod_self_left, Nat.mod_eq_of_lt hlt]
    · rw [he, Nat.add_mul_div_left _ _ hc, Nat.div_eq_of_lt hlt]
      omega
  · intro heq
    constructor
    · rw [he, Nat.add_mul_mod_self_left, heq, Nat.mod_self]
    · rw [he, Nat.add_mul_div_left _ _ hc, heq, Nat.div_self hc]
      omega

theorem perform_print_step {c r L : Nat} {t : Terminal} (hc : 1 ≤ c) (hr : 1 ≤ r)
    (hcols : t.cols = c) (hrows : t.rows = r) (hst : t.scroll_top = 0)
    (hsb : t.scroll_bottom = r - 1) (hg : GridOK r c t.grid)
    (hx : t.cursor_x = if L = 0 then 0 else (L - 1) % c + 1)
    (hy : t.cursor_y = (L - 1) / c)
    (hL : L + 1 < c * r) (ch : Char) :
    ∃ t2, perform_print t ch = some t2 ∧ t2.cols = c ∧ t2.rows = r ∧
      t2.scroll_top = 0 ∧ t2.scroll_bottom = r - 1 ∧ GridOK r c t2.grid ∧
      t2.cursor_x = L % c + 1 ∧ t2.cursor_y = L / c := by
  have hmodlt : (L - 1) % c < c := Nat.mod_lt _ hc
  by_cases hwrap : t.cursor_x ≥ t.cols
  · -- deferred wrap: cursor_x = cols, so L ≥ 1 and (L-1) % c = c - 1
    have hL0 : L ≠ 0 := by
      intro h0
      rw [h0] at hx
      simp at hx
      omega
    have hmod : (L - 1) % c + 1 = c := by
      rw [hx, if_neg hL0, hcols] at hwrap
      omega
    obtain ⟨hm, hd⟩ := (succ_mod_div hc (L - 1)).2 hmod
    have hL1 : L - 1 + 1 = L := by omega
    rw [hL1] at hm hd
    have hdivlt : L / c < r := (Nat.div_lt_iff_lt_mul hc).mpr
      (by rw [Nat.mul_comm r c]; omega)
    have hyne : t.cursor_y ≠ t.scroll_bottom := by
      rw [hy, hsb]
      omega
    have ht1 : (t.new_line).map (fun u => { u with cursor_x := 0 }) =
        some { t with cursor_y := L / c, cursor_x := 0 } := by
      rw [new_line_else hyne]
      simp only [Option.map_some']
      have hclamp : (if t.cursor_y + 1 ≥ t.rows then t.rows - 1 else t.cursor_y + 1)
          = L / c := by
        rw [hy, hrows]
        split <;> omega
      rw [hclamp]
    have hylt2 : L / c < t.grid.length := by
      rw [hg.1]
      omega
    obtain ⟨row, hgetr, hmemr⟩ := vecGet_mem hylt2
    have hrlen : row.length = c := hg.2 row hmemr
    have hxlt : 0 < row.length := by omega
    refine ⟨{ t with
        grid := t.grid.set (L / c) (row.set 0
          { char := ch, fg := t.current_fg, bg := t.current_bg,
            inverse := t.current_inverse }),
        cursor_x := 1, cursor_y := L / c }, ?_, ?_, ?_, ?_, ?_, ?_, ?_, ?_⟩
    · unfold perform_print
      rw [if_pos hwrap, ht1]
      dsimp only
      simp only [hgetr, vecSet_some hxlt, vecSet_some hylt2]
      try rfl
    · exact hcols
    · exact hrows
    · exact hst
    · exact hsb
    · exact gridOK_set hg (by simp [hrlen])
    · dsimp only
      omega
    · rfl
  · -- no wrap: write at (cursor_y, cursor_x)
    have hxc : t.cursor_x < c := by omega
    have hylt2 : t.cursor_y < t.grid.length := by
      rw [hg.1, hy]
      rcases Nat.eq_zero_or_pos L with h0 | hpos
      · simp [h0]
        omega
      · exact (Nat.div_lt_iff_lt_mul hc).mpr (by rw [Nat.mul_comm r c]; omega)
    obtain ⟨row, hgetr, hmemr⟩ := vecGet_mem hylt2
    have hrlen : row.length = c := hg.2 row hmemr
    have hxlt : t.cursor_x < row.length := by omega
    refine ⟨{ t with
        grid := t.grid.set t.cursor_y (row.set t.cursor_x
          { char := ch, fg := t.current_fg, bg := t.current_bg,
            inverse := t.current_inverse }),
        cursor_x := t.cursor_x + 1 }, ?_, ?_, ?_, ?_, ?_, ?_, ?_, ?_⟩
    · unfold perform_print
      rw [if_neg hwrap]
      simp only [hgetr, vecSet_some hxlt, vecSet_some hylt2]
      try rfl
    · exact hcols
    · exact hrows
    · exact hst
    · exact hsb
    · exact gridOK_set hg (by simp [hrlen])
    · dsimp only
      rcases Nat.eq_zero_or_pos L with h0 | hpos
      · rw [hx, h0]
        try simp
      · have hmodlt2 : (L - 1) % c + 1 < c := by
          rw [hx, if_neg (by omega)] at hxc
          omega
        obtain ⟨hm, _⟩ := (succ_mod_div hc (L - 1)).1 hmodlt2
        have hL1 : L - 1 + 1 = L := by omega
        rw [hL1] at hm
        rw [hx, if_neg (by omega), hm]
    · dsimp only
      rcases Nat.eq_zero_or_pos L with h0 | hpos
      · rw [hy, h0]
        try simp
      · have hmodlt2 : (L - 1) % c + 1 < c := by
          rw [hx, if_neg (by omega)] at hxc
          omega
        obtain ⟨_, hd⟩ := (succ_mod_div hc (L - 1)).1 hmodlt2
        have hL1 : L - 1 + 1 = L := by omega
        rw [hL1] at hd
        rw [hy, hd]

theorem applyEffects_append (t : Terminal) (es1 es2 : List Effect) :
    applyEffects t (es1 ++ es2) =
      match applyEffects t es1 with
      | none => none
      | some t1 => applyEffects t1 es2 := by
  induction es1 generalizing t with
  | nil => rfl
  | cons e es ih =>
    simp only [List.cons_append, applyEffects]
    cases h : applyEffect t e with
    | none => rfl
    | some t1 => exact ih t1

theorem printN_cursor (c r : Nat) (hc : 1 ≤ c) (hr : 1 ≤ r) :
    ∀ cs : List Char, cs.length < c * r →
    ∃ t', applyEffects (Terminal.new c r) (cs.map Effect.print) = some t' ∧
      t'.cols = c ∧ t'.rows = r ∧ t'.scroll_top = 0 ∧ t'.scroll_bottom = r - 1 ∧
      GridOK r c t'.grid ∧
      t'.cursor_x = (if cs.length = 0 then 0 else (cs.length - 1) % c + 1) ∧
      t'.cursor_y = (cs.length - 1) / c := by
  intro cs
  induction cs using List.reverseRecOn with
  | nil =>
    intro _
    refine ⟨Terminal.new c r, rfl, rfl, rfl, rfl, rfl,
      (termInv_new hc hr).2.2.1, ?_, ?_⟩ <;> simp [Terminal.new]
  | append_singleton cs ch ih =>
    intro hlen
    rw [List.length_append, List.length_singleton] at hlen
    obtain ⟨t1, h1, hcols, hrows, hst, hsb, hg, hx, hy⟩ := ih (by omega)
    obtain ⟨t2, h2, hcols2, hrows2, hst2, hsb2, hg2, hx2, hy2⟩ :=
      perform_print_step hc hr hcols hrows hst hsb hg hx hy hlen ch
    refine ⟨t2, ?_, hcols2, hrows2, hst2, hsb2, hg2, ?_, ?_⟩
    · rw [List.map_append, applyEffects_append, h1]
      simp only [List.map_cons, List.map_nil, applyEffects, applyEffect, h2]
    · rw [List.length_append, List.length_singleton]
      simp only [Nat.add_sub_cancel]
      rw [hx2]
      simp
    · rw [List.length_append, List.length_singleton]
      simp only [Nat.add_sub_cancel]
      exact hy2

/-- Claim C4 as stated fails on the code at cols = 2, rows = 2, n = 2:
after printing two glyphs the cursor is at the deferred-wrap position
(2, 0), not at (2 mod 2, 2 div 2) = (0, 1), although 2 < cols*rows. -/
theorem C4_counterexample :
    (applyEffects (Terminal.new 2 2)
      [Effect.print 'a', Effect.print 'b']).map Terminal.cursor_x = some 2 ∧
    (applyEffects (Terminal.new 2 2)
      [Effect.print 'a', Effect.print 'b']).map Terminal.cursor_y = some 0 ∧
    2 % 2 = 0 ∧ 2 / 2 = 1 ∧ 2 < 2 * 2 := by
  decide

/-- Amended claim C4: printing n glyphs from a fresh cols=c, rows=r
terminal with n < c*r leaves the cursor at (n mod c, n div c) when c does
not divide n (or n = 0); when c divides n and n ≥ 1 the cursor is at the
deferred-wrap position (c, n div c - 1). -/
theorem C4_print_cursor (c r n : Nat) (hc : 1 ≤ c) (hr : 1 ≤ r)
    (hn : n < c * r) (cs : List Char) (hlen : cs.length = n) :
    ∃ t', applyEffects (Terminal.new c r) (cs.map Effect.print) = some t' ∧
      ((n % c ≠ 0 ∨ n = 0) → t'.cursor_x = n % c ∧ t'.cursor_y = n / c) ∧
      (n % c = 0 → n ≠ 0 → t'.cursor_x = c ∧ t'.cursor_y = n / c - 1) := by
  subst hlen
  obtain ⟨t', h, _, _, _, _, _, hx, hy⟩ := printN_cursor c r hc hr cs hn
  have hmodlt : (cs.length - 1) % c < c := Nat.mod_lt _ hc
  refine ⟨t', h, ?_, ?_⟩
  · rintro (hmod | h0)
    · have hn0 : cs.length ≠ 0 := by
        intro h0
        rw [h0] at hmod
        simp at hmod
      rw [hx, if_neg hn0, hy]
      rcases Nat.lt_or_ge ((cs.length - 1) % c + 1) c with hlt | hge
      · obtain ⟨hm, hd⟩ := (succ_mod_div hc (cs.length - 1)).1 hlt
        rw [show cs.length - 1 + 1 = cs.length by omega] at hm hd
        exact ⟨hm.symm, hd.symm⟩
      · have hmodc : (cs.length - 1) % c + 1 = c := by omega
        obtain ⟨hm, _⟩ := (succ_mod_div hc (cs.length - 1)).2 hmodc
        rw [show cs.length - 1 + 1 = cs.length by omega] at hm
        exact absurd hm hmod
    · rw [hx, if_pos h0, hy, h0]
      simp
  · intro hmod hn0
    rw [hx, if_neg hn0, hy]
    have hmodc : (cs.length - 1) % c + 1 = c := by
      rcases Nat.lt_or_ge ((cs.length - 1) % c + 1) c with hlt | hge
      · obtain ⟨hm, _⟩ := (succ_mod_div hc (cs.length - 1)).1 hlt
        rw [show cs.length - 1 + 1 = cs.length by omega] at hm
        omega
      · omega
    obtain ⟨_, hd⟩ := (succ_mod_div hc (cs.length - 1)).2 hmodc
    rw [show cs.length - 1 + 1 = cs.length by omega] at hd
    exact ⟨by omega, by omega⟩

/-- Witness for the amended C4 at c = 2, r = 2, n = 1. -/
theorem C4_print_cursor_witness :
    ∃ t', applyEffects (Terminal.new 2 2) ([ 'a' ].map Effect.print) = some t' ∧
      ((1 % 2 ≠ 0 ∨ 1 = 0) → t'.cursor_x = 1 % 2 ∧ t'.cursor_y = 1 / 2) ∧
      (1 % 2 = 0 → 1 ≠ 0 → t'.cursor_x = 2 ∧ t'.cursor_y = 1 / 2 - 1) :=
  C4_print_cursor 2 2 1 (by decide) (by decide) (by decide) [ 'a' ] (by decide)

/-! ### C8: selection endpoints are both set or both unset -/

/-- Both selection endpoints are Some, or both are None. -/
def SelInv (t : Terminal) : Prop :=
  t.selection_start.isSome = t.selection_end.isSome

/-- Claim C8: every Terminal operation of the embedding preserves the
both-Some-or-both-None selection invariant (the Perform effects never
touch the selection at all), and update_selection with no active
selection is a no-op. -/
theorem C8_selection_invariant :
    (∀ c r, SelInv (Terminal.new c r)) ∧
    (∀ t col row, SelInv (Terminal.start_selection t col row)) ∧
    (∀ t col row, SelInv t → SelInv (Terminal.update_selection t col row)) ∧
    (∀ t, SelInv (Terminal.clear_selection t)) ∧
    (∀ t n, SelInv t → SelInv (Terminal.scroll_up t n)) ∧
    (∀ t n, SelInv t → SelInv (Terminal.scroll_down t n)) ∧
    (∀ t c2 r2, SelInv t → SelInv (Terminal.resize t c2 r2)) ∧
    (∀ t e t', applyEffect t e = some t' → SelInv t → SelInv t') ∧
    (∀ t col row, t.selection_start = none →
      Terminal.update_selection t col row = t) := by
  refine ⟨?_, ?_, ?_, ?_, ?_, ?_, ?_, ?_, ?_⟩
  · intro c r
    rfl
  · intro t col row
    rfl
  · intro t col row hS
    unfold Terminal.update_selection
    split
    · rename_i hsome
      unfold SelInv
      dsimp only
      rw [hsome, Option.isSome_some]
    · exact hS
  · intro t
    rfl
  · intro t n h
    exact h
  · intro t n h
    exact h
  · intro t c2 r2 h
    exact h
  · intro t e t' h hS
    have hfix := applyEffect_fixed h
    unfold EffFixed effFields at hfix
    simp only [Prod.mk.injEq] at hfix
    obtain ⟨_, _, _, _, _, h1, h2⟩ := hfix
    unfold SelInv
    rw [h1, h2]
    exact hS
  · intro t col row hnone
    unfold Terminal.update_selection
    simp [hnone]
